import Mathlib

/-!
Shallow embedding of the streaming session coordinator of
`app/utils/streaming.py` (functions `StreamManager`, `stream_llm_response`,
`abort_stream`, `continue_stream`).

Modelling conventions:
* The SQLAlchemy `Message` row is `MessageRec`: the JSON `content` dict
  `{"text": ..., "error": ...}` becomes the `text` and `errorText` fields,
  the `is_partial` column becomes `isPartial`, `chat_session_id` becomes
  `sessionId`.  `db.commit()` of the in-memory row is `dbSet` plus an
  `Act.dbWrite` entry in the observable trace.
* The provider's `stream_chat` async generator is a finite list of
  fragments `tokens`, optionally followed by a terminal error `termErr`
  (the exception the generator raises after yielding the prefix).
* The WebSocket passed to the run is `hasWs`; each `websocket.send_text`
  is a push attempt numbered by `pushCount`; `fails n = true` means the
  n-th attempt raises (client disconnected), mirroring that a raising
  `send_text` propagates into the `except` block.
* Python's asyncio interleaving of an `abort_stream` control request with
  the run is modelled at fragment granularity by `abortAt : Option Nat`:
  `abortAt = some i` applies `abort_stream` to the manager state right
  before the run processes fragment number `i` (`some 0` = before any
  fragment is pulled).  The run itself never reads the manager, exactly
  as in the source, where the `async for` loop never consults
  `stream_manager.streaming_sessions`.
-/

structure MessageRec where
  sessionId : String
  text : String
  errorText : Option String
  isPartial : Bool
deriving DecidableEq

/-- Placeholder for the absent `message` local in the reject branch of
`continue_stream` (the ValueError is raised before any row is touched). -/
def noRec : MessageRec := ⟨"", "", none, false⟩

structure StreamManager where
  active_connections : List String
  streaming_sessions : List String
deriving DecidableEq

def StreamManager.connect (m : StreamManager) (sid : String) : StreamManager :=
  { m with active_connections :=
      if m.active_connections.contains sid then m.active_connections
      else sid :: m.active_connections }

def StreamManager.disconnect (m : StreamManager) (sid : String) : StreamManager :=
  { m with
    active_connections := m.active_connections.filter (fun s => !(s == sid)),
    streaming_sessions := m.streaming_sessions.filter (fun s => !(s == sid)) }

def StreamManager.is_streaming (m : StreamManager) (sid : String) : Bool :=
  m.streaming_sessions.contains sid

def StreamManager.start_streaming (m : StreamManager) (sid : String) : StreamManager :=
  { m with streaming_sessions :=
      if m.streaming_sessions.contains sid then m.streaming_sessions
      else sid :: m.streaming_sessions }

def StreamManager.stop_streaming (m : StreamManager) (sid : String) : StreamManager :=
  { m with streaming_sessions := m.streaming_sessions.filter (fun s => !(s == sid)) }

/-- Events delivered over a WebSocket, following the `"type"` field of the
JSON payloads in the source. -/
inductive Ev where
  | streamStart (mid : String)
  | streamContinue (mid existing : String)
  | token (mid tok content : String)
  | streamComplete (mid content : String)
  | streamError (mid err : String) (content : Option String)
  | streamAborted
deriving DecidableEq

/-- Observable actions of a run, in program order. -/
inductive Act where
  | dbWrite (r : MessageRec)
  | push (e : Ev)
  | pushFail (e : Ev)
  | providerClose
deriving DecidableEq

abbrev DB := List (String × MessageRec)

def dbGet (db : DB) (mid : String) : Option MessageRec :=
  (db.find? (fun p => p.1 == mid)).map (fun p => p.2)

def dbSet (db : DB) (mid : String) (r : MessageRec) : DB :=
  if db.any (fun p => p.1 == mid) then
    db.map (fun p => if p.1 == mid then (mid, r) else p)
  else db ++ [(mid, r)]

/-- `StreamManager.send_message`: looks the sink up in `active_connections`,
swallows a failing send by disconnecting.  Returns the delivered event. -/
def send_message (m : StreamManager) (sid : String) (ev : Ev) (sendFail : Bool) :
    StreamManager × Option Ev :=
  if m.active_connections.contains sid then
    if sendFail then (m.disconnect sid, none) else (m, some ev)
  else (m, none)

/-- `abort_stream`: checks `is_streaming`, unmarks the session, notifies the
sink through the manager, returns whether a streaming session was found. -/
def abort_stream (sid : String) (sendFail : Bool) (m : StreamManager) :
    StreamManager × Bool × Option Ev :=
  if m.is_streaming sid then
    let m1 := m.stop_streaming sid
    let r := send_message m1 sid Ev.streamAborted sendFail
    (r.1, true, r.2)
  else (m, false, none)

/-- In-flight state of one run: the db, the manager, the in-memory ORM row,
the `content` local, the push-attempt counter and the observable trace. -/
structure St where
  db : DB
  mgr : StreamManager
  row : MessageRec
  content : String
  pushCount : Nat
  trace : List Act
deriving DecidableEq

/-- One `websocket.send_text` attempt (a no-op when no sink was passed);
a failing attempt surfaces as an exception message. -/
def pushEv (hasWs : Bool) (fails : Nat → Bool) (st : St) (e : Ev) :
    St × Option String :=
  if hasWs then
    if fails st.pushCount then
      ({ st with pushCount := st.pushCount + 1, trace := st.trace ++ [Act.pushFail e] },
       some "WebSocketDisconnect")
    else
      ({ st with pushCount := st.pushCount + 1, trace := st.trace ++ [Act.push e] },
       none)
  else (st, none)

/-- Interleave an externally requested `abort_stream` (whose own send
succeeds) at this point of the run, recording the delivered event. -/
def maybeAbort (sid : String) (abortAt : Option Nat) (i : Nat) (st : St) : St :=
  if abortAt = some i then
    let r := abort_stream sid false st.mgr
    { st with mgr := r.1
              trace := st.trace ++ (match r.2.2 with
                | some e => [Act.push e]
                | none => []) }
  else st

/-- The `async for token in provider.stream_chat(...)` loop shared by
`stream_llm_response` and `continue_stream`: append the fragment, commit
the row, then push the token event. -/
def streamLoop (amid sid : String) (hasWs : Bool) (fails : Nat → Bool)
    (abortAt : Option Nat) : Nat → List String → St → St × Option String
  | i, [], st => (maybeAbort sid abortAt i st, none)
  | i, tok :: rest, st =>
    let st0 := maybeAbort sid abortAt i st
    let c := st0.content ++ tok
    let r : MessageRec := { st0.row with text := c, errorText := none }
    let st1 : St := { st0 with
      content := c
      row := r
      db := dbSet st0.db amid r
      trace := st0.trace ++ [Act.dbWrite r] }
    match pushEv hasWs fails st1 (Ev.token amid tok c) with
    | (st2, some e) => (st2, some e)
    | (st2, none) => streamLoop amid sid hasWs fails abortAt (i + 1) rest st2

/-- `except Exception as e` handler of `stream_llm_response`: record the
error into the row, push a `stream_error` event carrying the content, then
re-raise (or propagate a failure of that very push). -/
def exceptPath (amid : String) (hasWs : Bool) (fails : Nat → Bool) (e : String)
    (st : St) : St × Except String String :=
  let r : MessageRec := { st.row with
    text := st.content
    errorText := some e
    isPartial := false }
  let st1 : St := { st with
    row := r
    db := dbSet st.db amid r
    trace := st.trace ++ [Act.dbWrite r] }
  match pushEv hasWs fails st1 (Ev.streamError amid e (some st1.content)) with
  | (st2, some e2) => (st2, Except.error e2)
  | (st2, none) => (st2, Except.error e)

/-- Normal completion of `stream_llm_response`: mark the row complete,
push `stream_complete`; a failing push falls into the `except` handler. -/
def completePath (amid : String) (hasWs : Bool) (fails : Nat → Bool) (st : St) :
    St × Except String String :=
  let r : MessageRec := { st.row with
    text := st.content
    errorText := none
    isPartial := false }
  let st1 : St := { st with
    row := r
    db := dbSet st.db amid r
    trace := st.trace ++ [Act.dbWrite r] }
  match pushEv hasWs fails st1 (Ev.streamComplete amid st1.content) with
  | (st2, some e) => exceptPath amid hasWs fails e st2
  | (st2, none) => (st2, Except.ok st2.content)

/-- The `finally` block: unmark the session and close the provider client. -/
def finallyPath (sid : String) (st : St) : St :=
  { st with mgr := st.mgr.stop_streaming sid
            trace := st.trace ++ [Act.providerClose] }

/-- Body of the `try` of `stream_llm_response`. -/
def runBody (amid sid : String) (tokens : List String) (termErr : Option String)
    (hasWs : Bool) (fails : Nat → Bool) (abortAt : Option Nat) (st : St) :
    St × Except String String :=
  match pushEv hasWs fails st (Ev.streamStart amid) with
  | (st1, some e) => exceptPath amid hasWs fails e st1
  | (st1, none) =>
    match streamLoop amid sid hasWs fails abortAt 0 tokens st1 with
    | (st2, some e) => exceptPath amid hasWs fails e st2
    | (st2, none) =>
      match termErr with
      | some e => exceptPath amid hasWs fails e st2
      | none => completePath amid hasWs fails st2

/-- `stream_llm_response`: create the partial assistant row, mark the
session streaming, run the body, then always run the `finally` block. -/
def stream_llm_response (sid amid : String) (tokens : List String)
    (termErr : Option String) (hasWs : Bool) (fails : Nat → Bool)
    (abortAt : Option Nat) (db0 : DB) (mgr0 : StreamManager) :
    St × Except String String :=
  let r0 : MessageRec := ⟨sid, "", none, true⟩
  let st0 : St := ⟨dbSet db0 amid r0, mgr0.start_streaming sid, r0, "", 0,
                   [Act.dbWrite r0]⟩
  let out := runBody amid sid tokens termErr hasWs fails abortAt st0
  (finallyPath sid out.1, out.2)

/-- `except` handler of `continue_stream`: like `exceptPath` but the
`stream_error` payload carries no content field. -/
def exceptPathC (mid : String) (hasWs : Bool) (fails : Nat → Bool) (e : String)
    (st : St) : St × Except String String :=
  let r : MessageRec := { st.row with
    text := st.content
    errorText := some e
    isPartial := false }
  let st1 : St := { st with
    row := r
    db := dbSet st.db mid r
    trace := st.trace ++ [Act.dbWrite r] }
  match pushEv hasWs fails st1 (Ev.streamError mid e none) with
  | (st2, some e2) => (st2, Except.error e2)
  | (st2, none) => (st2, Except.error e)

/-- Completion of `continue_stream`: only `is_partial` is flipped; the
content dict is left as written by the last loop iteration. -/
def completePathC (mid : String) (hasWs : Bool) (fails : Nat → Bool) (st : St) :
    St × Except String String :=
  let r : MessageRec := { st.row with isPartial := false }
  let st1 : St := { st with
    row := r
    db := dbSet st.db mid r
    trace := st.trace ++ [Act.dbWrite r] }
  match pushEv hasWs fails st1 (Ev.streamComplete mid st1.content) with
  | (st2, some e) => exceptPathC mid hasWs fails e st2
  | (st2, none) => (st2, Except.ok st2.content)

/-- Body of the `try` of `continue_stream`.  If the initial
`stream_continue` push raises, the handler trips over the still-unbound
`content` local (a NameError): no row update, no error event. -/
def runBodyC (mid sid : String) (existing : String) (tokens : List String)
    (termErr : Option String) (hasWs : Bool) (fails : Nat → Bool)
    (abortAt : Option Nat) (st : St) : St × Except String String :=
  match pushEv hasWs fails st (Ev.streamContinue mid existing) with
  | (st1, some _) => (st1, Except.error "NameError")
  | (st1, none) =>
    match streamLoop mid sid hasWs fails abortAt 0 tokens st1 with
    | (st2, some e) => exceptPathC mid hasWs fails e st2
    | (st2, none) =>
      match termErr with
      | some e => exceptPathC mid hasWs fails e st2
      | none => completePathC mid hasWs fails st2

/-- `continue_stream`: look the partial row up, seed `content` with its
stored text, and resume the shared state machine on the same row. -/
def continue_stream (mid : String) (tokens : List String)
    (termErr : Option String) (hasWs : Bool) (fails : Nat → Bool)
    (abortAt : Option Nat) (db0 : DB) (mgr0 : StreamManager) :
    St × Except String String :=
  let rej : St × Except String String :=
    (⟨db0, mgr0, noRec, "", 0, []⟩,
     Except.error "Message not found or not partial")
  match dbGet db0 mid with
  | none => rej
  | some msg =>
    if msg.isPartial then
      let sid := msg.sessionId
      let st0 : St := ⟨db0, mgr0.start_streaming sid, msg, msg.text, 0, []⟩
      let out := runBodyC mid sid msg.text tokens termErr hasWs fails abortAt st0
      (finallyPath sid out.1, out.2)
    else rej


/-- The always-successful push schedule (a healthy client). -/
def ffalse : Nat → Bool := fun _ => false

/-- Concatenation of a fragment list, in generation order. -/
def joinAll : List String → String
  | [] => ""
  | t :: r => t ++ joinAll r

/-- Events actually delivered to the sink, in order. -/
def pushes (l : List Act) : List Ev :=
  l.filterMap (fun a => match a with | Act.push e => some e | _ => none)

/-- Texts committed to the Partial-Message Store, in order. -/
def writtenTexts (l : List Act) : List String :=
  l.filterMap (fun a => match a with | Act.dbWrite r => some r.text | _ => none)

def isClose : Act → Bool
  | Act.providerClose => true
  | _ => false

/-- How many times the provider client was closed. -/
def closeCount (l : List Act) : Nat := l.countP isClose

/-- One loop iteration when the token push is delivered. -/
def okStep (amid : String) (hasWs : Bool) (tok : String) (st : St) : St :=
  let c := st.content ++ tok
  let r : MessageRec := { st.row with text := c, errorText := none }
  let st1 : St := { st with
    content := c
    row := r
    db := dbSet st.db amid r
    trace := st.trace ++ [Act.dbWrite r] }
  if hasWs then
    { st1 with
      pushCount := st1.pushCount + 1
      trace := st1.trace ++ [Act.push (Ev.token amid tok c)] }
  else st1

/-- The loop when every push is delivered. -/
def okRun (amid : String) (hasWs : Bool) : List String → St → St
  | [], st => st
  | tok :: rest, st => okRun amid hasWs rest (okStep amid hasWs tok st)

/-- The data computed by one run of the loop, with the manager and trace
projected away. -/
def coreLoop (amid : String) (hasWs : Bool) (fails : Nat → Bool) :
    List String → DB → MessageRec → String → Nat →
    DB × MessageRec × String × Nat × Option String
  | [], d, r, c, p => (d, r, c, p, none)
  | tok :: rest, d, r, c, p =>
    let c2 := c ++ tok
    let r2 : MessageRec := { r with text := c2, errorText := none }
    let d2 := dbSet d amid r2
    if hasWs then
      if fails p then (d2, r2, c2, p + 1, some "WebSocketDisconnect")
      else coreLoop amid hasWs fails rest d2 r2 c2 (p + 1)
    else coreLoop amid hasWs fails rest d2 r2 c2 p

/-- The part of the run body after the initial event was delivered. -/
def afterStart (amid sid : String) (tokens : List String) (termErr : Option String)
    (hasWs : Bool) (fails : Nat → Bool) (abortAt : Option Nat) (st : St) :
    St × Except String String :=
  match streamLoop amid sid hasWs fails abortAt 0 tokens st with
  | (st2, some e) => exceptPath amid hasWs fails e st2
  | (st2, none) =>
    match termErr with
    | some e => exceptPath amid hasWs fails e st2
    | none => completePath amid hasWs fails st2

/-- The part of the continuation body after the `stream_continue` event
was delivered. -/
def afterStartC (mid sid : String) (tokens : List String) (termErr : Option String)
    (hasWs : Bool) (fails : Nat → Bool) (abortAt : Option Nat) (st : St) :
    St × Except String String :=
  match streamLoop mid sid hasWs fails abortAt 0 tokens st with
  | (st2, some e) => exceptPathC mid hasWs fails e st2
  | (st2, none) =>
    match termErr with
    | some e => exceptPathC mid hasWs fails e st2
    | none => completePathC mid hasWs fails st2

/-- The set of texts committed so far (most recent first), accumulated
over a trace. -/
def wset (w : List String) : List Act → List String
  | [] => w
  | Act.dbWrite r :: rest => wset (r.text :: w) rest
  | _ :: rest => wset w rest

/-- Checks that every delivered token event carries a running total that
was already committed to the store at that point of the trace. -/
def wbeAux (w : List String) : List Act → Bool
  | [] => true
  | Act.dbWrite r :: rest => wbeAux (r.text :: w) rest
  | Act.push (Ev.token _ _ c) :: rest => w.contains c && wbeAux w rest
  | _ :: rest => wbeAux w rest

/-- Each committed text extends the previous one by appending. -/
def appendChain : List String → Prop
  | [] => True
  | [_] => True
  | a :: b :: rest => (∃ u, b = a ++ u) ∧ appendChain (b :: rest)

/-- Monotone lengths. -/
def lensMono : List Nat → Bool
  | a :: b :: rest => decide (a ≤ b) && lensMono (b :: rest)
  | _ => true

/-- The run invariant for the append-only property. -/
def chainInv (st : St) : Prop :=
  appendChain (writtenTexts st.trace) ∧
  (∀ x, (writtenTexts st.trace).getLast? = some x → ∃ u, st.content = x ++ u) ∧
  st.row.text = st.content

/-! ## Theorems -/

theorem joinAll_nil : joinAll [] = "" := rfl

theorem joinAll_cons (t : String) (r : List String) :
    joinAll (t :: r) = t ++ joinAll r := rfl

theorem pushes_append (l₁ l₂ : List Act) :
    pushes (l₁ ++ l₂) = pushes l₁ ++ pushes l₂ := by
  simp [pushes, List.filterMap_append]

theorem writtenTexts_append (l₁ l₂ : List Act) :
    writtenTexts (l₁ ++ l₂) = writtenTexts l₁ ++ writtenTexts l₂ := by
  simp [writtenTexts, List.filterMap_append]

theorem closeCount_append (l₁ l₂ : List Act) :
    closeCount (l₁ ++ l₂) = closeCount l₁ + closeCount l₂ := by
  simp [closeCount, List.countP_append]

theorem pushes_push (e : Ev) : pushes [Act.push e] = [e] := rfl

theorem pushes_dbWrite (r : MessageRec) : pushes [Act.dbWrite r] = [] := rfl

theorem pushes_pushFail (e : Ev) : pushes [Act.pushFail e] = [] := rfl

theorem pushes_close : pushes [Act.providerClose] = [] := rfl

theorem writtenTexts_dbWrite (r : MessageRec) :
    writtenTexts [Act.dbWrite r] = [r.text] := rfl

theorem writtenTexts_push (e : Ev) : writtenTexts [Act.push e] = [] := rfl

theorem writtenTexts_pushFail (e : Ev) : writtenTexts [Act.pushFail e] = [] := rfl

theorem writtenTexts_close : writtenTexts [Act.providerClose] = [] := rfl

theorem closeCount_dbWrite (r : MessageRec) : closeCount [Act.dbWrite r] = 0 := rfl

theorem closeCount_push (e : Ev) : closeCount [Act.push e] = 0 := rfl

theorem closeCount_pushFail (e : Ev) : closeCount [Act.pushFail e] = 0 := rfl

theorem closeCount_close : closeCount [Act.providerClose] = 1 := rfl

theorem closeCount_nil : closeCount [] = 0 := rfl


theorem contains_filter_out (l : List String) (sid : String) :
    (l.filter (fun s => !(s == sid))).contains sid = false := by
  induction l with
  | nil => rfl
  | cons a l ih =>
    by_cases h : a = sid
    · simp [List.filter_cons, h, ih]
    · have hb : (a == sid) = false := by simp [h]
      simp [List.filter_cons, hb, List.contains_cons, ih]
      simpa [beq_iff_eq] using fun hc => (h hc.symm).elim

theorem stop_streaming_not (m : StreamManager) (sid : String) :
    (m.stop_streaming sid).is_streaming sid = false := by
  simp [StreamManager.stop_streaming, StreamManager.is_streaming, contains_filter_out]

theorem disconnect_not_streaming (m : StreamManager) (sid : String) :
    (m.disconnect sid).is_streaming sid = false := by
  simp [StreamManager.disconnect, StreamManager.is_streaming, contains_filter_out]

theorem disconnect_not_connected (m : StreamManager) (sid : String) :
    (m.disconnect sid).active_connections.contains sid = false := by
  simp [StreamManager.disconnect, contains_filter_out]

theorem abort_stream_found (sid : String) (f : Bool) (m : StreamManager) :
    (abort_stream sid f m).2.1 = m.is_streaming sid := by
  unfold abort_stream
  by_cases h : m.is_streaming sid <;> simp [h]

theorem abort_stream_stops (sid : String) (m : StreamManager) :
    (abort_stream sid false m).1.is_streaming sid = false := by
  unfold abort_stream
  by_cases h : m.is_streaming sid
  · simp only [h, if_true, send_message]
    split <;> simp [stop_streaming_not]
  · simp [h]


theorem find?_setMap (db : DB) (mid : String) (r : MessageRec)
    (h : db.any (fun p => p.1 == mid) = true) :
    (db.map (fun p => if p.1 == mid then (mid, r) else p)).find?
      (fun p => p.1 == mid) = some (mid, r) := by
  induction db with
  | nil => simp at h
  | cons hd tl ih =>
    rw [List.map_cons]
    by_cases hh : (hd.1 == mid) = true
    · have hmap : (if hd.1 == mid then (mid, r) else hd) = (mid, r) := by simp [hh]
      rw [hmap]
      exact List.find?_cons_of_pos _ (by simp)
    · have hmap : (if hd.1 == mid then (mid, r) else hd) = hd := by simp [hh]
      have hh2 : ¬((fun p : String × MessageRec => p.1 == mid) hd = true) := hh
      rw [hmap, @List.find?_cons_of_neg _ (fun p : String × MessageRec => p.1 == mid) hd _ hh2]
      exact ih (by simpa [List.any_cons, hh] using h)

theorem find?_setMap_ne (db : DB) (mid k : String) (r : MessageRec) (hk : k ≠ mid) :
    (db.map (fun p => if p.1 == mid then (mid, r) else p)).find? (fun p => p.1 == k)
      = db.find? (fun p => p.1 == k) := by
  induction db with
  | nil => rfl
  | cons hd tl ih =>
    rw [List.map_cons]
    by_cases hh : (hd.1 == mid) = true
    · have hmap : (if hd.1 == mid then (mid, r) else hd) = (mid, r) := by simp [hh]
      have h1 : hd.1 = mid := beq_iff_eq.mp hh
      have hkk : ¬((fun p : String × MessageRec => p.1 == k) (mid, r) = true) := by
        simp only [beq_iff_eq]
        exact fun hc => hk hc.symm
      have hdk : ¬((fun p : String × MessageRec => p.1 == k) hd = true) := by
        simp only [beq_iff_eq, h1]
        exact fun hc => hk hc.symm
      rw [hmap, @List.find?_cons_of_neg _ (fun p : String × MessageRec => p.1 == k) (mid, r) _ hkk,
        @List.find?_cons_of_neg _ (fun p : String × MessageRec => p.1 == k) hd _ hdk, ih]
    · have hmap : (if hd.1 == mid then (mid, r) else hd) = hd := by simp [hh]
      rw [hmap]
      by_cases hdk : ((fun p : String × MessageRec => p.1 == k) hd = true)
      · rw [@List.find?_cons_of_pos _ (fun p : String × MessageRec => p.1 == k) hd _ hdk,
          @List.find?_cons_of_pos _ (fun p : String × MessageRec => p.1 == k) hd _ hdk]
      · rw [@List.find?_cons_of_neg _ (fun p : String × MessageRec => p.1 == k) hd _ hdk,
          @List.find?_cons_of_neg _ (fun p : String × MessageRec => p.1 == k) hd _ hdk, ih]

theorem dbGet_dbSet_self (db : DB) (mid : String) (r : MessageRec) :
    dbGet (dbSet db mid r) mid = some r := by
  unfold dbGet dbSet
  by_cases h : db.any (fun p => p.1 == mid) = true
  · rw [if_pos h, find?_setMap db mid r h]
    rfl
  · rw [if_neg h, List.find?_append]
    have hn : db.find? (fun p => p.1 == mid) = none := by
      rw [List.find?_eq_none]
      intro x hx hxp
      exact h (List.any_of_mem hx hxp)
    have h1 : List.find? (fun p : String × MessageRec => p.1 == mid) [(mid, r)]
        = some (mid, r) := List.find?_cons_of_pos _ (by simp)
    rw [hn, h1]
    rfl

theorem dbGet_dbSet_ne (db : DB) (mid k : String) (r : MessageRec) (hk : k ≠ mid) :
    dbGet (dbSet db mid r) k = dbGet db k := by
  unfold dbGet dbSet
  by_cases h : db.any (fun p => p.1 == mid) = true
  · rw [if_pos h, find?_setMap_ne db mid k r hk]
  · rw [if_neg h, List.find?_append]
    have h2 : List.find? (fun p : String × MessageRec => p.1 == k) [(mid, r)] = none := by
      rw [List.find?_eq_none]
      intro x hx
      have hx1 : x = (mid, r) := by simpa using hx
      subst hx1
      simp only [beq_iff_eq]
      exact fun hc => hk hc.symm
    rw [h2, Option.or_none]

theorem dbSet_any_self (db : DB) (mid : String) (r : MessageRec) :
    (dbSet db mid r).any (fun p => p.1 == mid) = true := by
  unfold dbSet
  by_cases h : db.any (fun p => p.1 == mid) = true
  · rw [if_pos h]
    rcases List.any_eq_true.mp h with ⟨x, hx, hxp⟩
    have hfx : (fun p : String × MessageRec =>
        if p.1 == mid then (mid, r) else p) x = (mid, r) := by simp [hxp]
    have himg : (mid, r) ∈ db.map (fun p => if p.1 == mid then (mid, r) else p) :=
      List.mem_map.mpr ⟨x, hx, hfx⟩
    exact List.any_eq_true.mpr ⟨(mid, r), himg, by simp⟩
  · rw [if_neg h]
    simp [List.any_append]

theorem dbSet_length_of_any (db : DB) (mid : String) (r : MessageRec)
    (h : db.any (fun p => p.1 == mid) = true) :
    (dbSet db mid r).length = db.length := by
  unfold dbSet
  rw [if_pos h, List.length_map]

theorem dbGet_any (db : DB) (mid : String) (msg : MessageRec)
    (h : dbGet db mid = some msg) : db.any (fun p => p.1 == mid) = true := by
  unfold dbGet at h
  cases hf : db.find? (fun p => p.1 == mid) with
  | none => rw [hf] at h; simp at h
  | some p =>
    have hp := List.find?_some hf
    have hm := List.mem_of_find?_eq_some hf
    exact List.any_of_mem hm hp


theorem maybeAbort_none (sid : String) (i : Nat) (st : St) :
    maybeAbort sid none i st = st := by
  simp [maybeAbort]

theorem streamLoop_eq_okRun (amid sid : String) (hasWs : Bool) :
    ∀ (toks : List String) (i : Nat) (st : St),
    streamLoop amid sid hasWs ffalse none i toks st = (okRun amid hasWs toks st, none) := by
  intro toks
  induction toks with
  | nil =>
    intro i st
    simp [streamLoop, maybeAbort_none, okRun]
  | cons tok rest ih =>
    intro i st
    rw [streamLoop, maybeAbort_none]
    cases hws : hasWs with
    | false =>
      rw [hws] at ih
      simp only [pushEv, if_false, Bool.false_eq_true]
      rw [ih]
      simp [okRun, okStep]
    | true =>
      rw [hws] at ih
      simp only [pushEv, ffalse, if_true, if_false, Bool.false_eq_true]
      rw [ih]
      simp [okRun, okStep]

theorem okRun_content (amid : String) (hasWs : Bool) :
    ∀ (toks : List String) (st : St),
    (okRun amid hasWs toks st).content = st.content ++ joinAll toks := by
  intro toks
  induction toks with
  | nil => intro st; simp [okRun, joinAll, String.append_empty]
  | cons tok rest ih =>
    intro st
    rw [okRun, ih]
    have hc : (okStep amid hasWs tok st).content = st.content ++ tok := by
      unfold okStep
      split <;> rfl
    rw [hc, joinAll_cons, String.append_assoc]

theorem okStep_row (amid : String) (hasWs : Bool) (tok : String) (st : St) :
    (okStep amid hasWs tok st).row =
      { st.row with text := st.content ++ tok, errorText := none } := by
  unfold okStep
  split <;> rfl

theorem okStep_mgr (amid : String) (hasWs : Bool) (tok : String) (st : St) :
    (okStep amid hasWs tok st).mgr = st.mgr := by
  unfold okStep
  split <;> rfl

theorem okStep_db (amid : String) (hasWs : Bool) (tok : String) (st : St) :
    (okStep amid hasWs tok st).db =
      dbSet st.db amid { st.row with text := st.content ++ tok, errorText := none } := by
  unfold okStep
  split <;> rfl

theorem okRun_mgr (amid : String) (hasWs : Bool) :
    ∀ (toks : List String) (st : St), (okRun amid hasWs toks st).mgr = st.mgr := by
  intro toks
  induction toks with
  | nil => intro st; rfl
  | cons tok rest ih => intro st; rw [okRun, ih, okStep_mgr]

theorem okRun_isPartial (amid : String) (hasWs : Bool) :
    ∀ (toks : List String) (st : St),
    (okRun amid hasWs toks st).row.isPartial = st.row.isPartial := by
  intro toks
  induction toks with
  | nil => intro st; rfl
  | cons tok rest ih => intro st; rw [okRun, ih, okStep_row]

theorem okRun_sessionId (amid : String) (hasWs : Bool) :
    ∀ (toks : List String) (st : St),
    (okRun amid hasWs toks st).row.sessionId = st.row.sessionId := by
  intro toks
  induction toks with
  | nil => intro st; rfl
  | cons tok rest ih => intro st; rw [okRun, ih, okStep_row]

theorem okRun_row_text (amid : String) (hasWs : Bool) :
    ∀ (toks : List String) (st : St), st.row.text = st.content →
    (okRun amid hasWs toks st).row.text = (okRun amid hasWs toks st).content := by
  intro toks
  induction toks with
  | nil => intro st h; exact h
  | cons tok rest ih =>
    intro st h
    rw [okRun]
    apply ih
    rw [okStep_row]
    have hc : (okStep amid hasWs tok st).content = st.content ++ tok := by
      unfold okStep
      split <;> rfl
    rw [hc]

theorem okRun_db_self (amid : String) (hasWs : Bool) :
    ∀ (toks : List String) (st : St), dbGet st.db amid = some st.row →
    dbGet (okRun amid hasWs toks st).db amid = some (okRun amid hasWs toks st).row := by
  intro toks
  induction toks with
  | nil => intro st h; exact h
  | cons tok rest ih =>
    intro st h
    rw [okRun]
    apply ih
    rw [okStep_row, okStep_db]
    exact dbGet_dbSet_self _ _ _

theorem okRun_db_frame (amid : String) (hasWs : Bool) :
    ∀ (toks : List String) (st : St) (k : String), k ≠ amid →
    dbGet (okRun amid hasWs toks st).db k = dbGet st.db k := by
  intro toks
  induction toks with
  | nil => intro st k _; rfl
  | cons tok rest ih =>
    intro st k hk
    rw [okRun, ih _ _ hk, okStep_db, dbGet_dbSet_ne _ _ _ _ hk]

theorem okRun_db_any (amid : String) (hasWs : Bool) :
    ∀ (toks : List String) (st : St),
    st.db.any (fun p => p.1 == amid) = true →
    (okRun amid hasWs toks st).db.any (fun p => p.1 == amid) = true := by
  intro toks
  induction toks with
  | nil => intro st h; exact h
  | cons tok rest ih =>
    intro st h
    rw [okRun]
    apply ih
    rw [okStep_db]
    exact dbSet_any_self _ _ _

theorem okRun_db_length (amid : String) (hasWs : Bool) :
    ∀ (toks : List String) (st : St),
    st.db.any (fun p => p.1 == amid) = true →
    (okRun amid hasWs toks st).db.length = st.db.length := by
  intro toks
  induction toks with
  | nil => intro st _; rfl
  | cons tok rest ih =>
    intro st h
    rw [okRun]
    have h2 : (okStep amid hasWs tok st).db.any (fun p => p.1 == amid) = true := by
      rw [okStep_db]
      exact dbSet_any_self _ _ _
    rw [ih _ h2, okStep_db, dbSet_length_of_any _ _ _ h]


theorem pushEv_ffalse (hasWs : Bool) (st : St) (e : Ev) :
    pushEv hasWs ffalse st e =
      (if hasWs then
        { st with
          pushCount := st.pushCount + 1
          trace := st.trace ++ [Act.push e] }
       else st, none) := by
  unfold pushEv ffalse
  cases hasWs <;> simp

theorem exceptPath_true_ffalse (amid e : String) (st : St) :
    exceptPath amid true ffalse e st =
      ({ st with
          row := { st.row with text := st.content, errorText := some e, isPartial := false }
          db := dbSet st.db amid
            { st.row with text := st.content, errorText := some e, isPartial := false }
          pushCount := st.pushCount + 1
          trace := st.trace
            ++ [Act.dbWrite { st.row with text := st.content, errorText := some e, isPartial := false }]
            ++ [Act.push (Ev.streamError amid e (some st.content))] },
       Except.error e) := by
  simp only [exceptPath, pushEv_ffalse, if_true]

theorem completePath_true_ffalse (amid : String) (st : St) :
    completePath amid true ffalse st =
      ({ st with
          row := { st.row with text := st.content, errorText := none, isPartial := false }
          db := dbSet st.db amid
            { st.row with text := st.content, errorText := none, isPartial := false }
          pushCount := st.pushCount + 1
          trace := st.trace
            ++ [Act.dbWrite { st.row with text := st.content, errorText := none, isPartial := false }]
            ++ [Act.push (Ev.streamComplete amid st.content)] },
       Except.ok st.content) := by
  simp only [completePath, pushEv_ffalse, if_true]

theorem completePathC_true_ffalse (mid : String) (st : St) :
    completePathC mid true ffalse st =
      ({ st with
          row := { st.row with isPartial := false }
          db := dbSet st.db mid { st.row with isPartial := false }
          pushCount := st.pushCount + 1
          trace := st.trace
            ++ [Act.dbWrite { st.row with isPartial := false }]
            ++ [Act.push (Ev.streamComplete mid st.content)] },
       Except.ok st.content) := by
  simp only [completePathC, pushEv_ffalse, if_true]

theorem runBody_true_ffalse_termErr (amid sid e : String) (tokens : List String) (st : St) :
    runBody amid sid tokens (some e) true ffalse none st =
      exceptPath amid true ffalse e
        (okRun amid true tokens
          { st with
              pushCount := st.pushCount + 1
              trace := st.trace ++ [Act.push (Ev.streamStart amid)] }) := by
  simp only [runBody, pushEv_ffalse, if_true, streamLoop_eq_okRun]

theorem runBody_true_ffalse_ok (amid sid : String) (tokens : List String) (st : St) :
    runBody amid sid tokens none true ffalse none st =
      completePath amid true ffalse
        (okRun amid true tokens
          { st with
              pushCount := st.pushCount + 1
              trace := st.trace ++ [Act.push (Ev.streamStart amid)] }) := by
  simp only [runBody, pushEv_ffalse, if_true, streamLoop_eq_okRun]

theorem runBodyC_true_ffalse_ok (mid sid existing : String) (tokens : List String) (st : St) :
    runBodyC mid sid existing tokens none true ffalse none st =
      completePathC mid true ffalse
        (okRun mid true tokens
          { st with
              pushCount := st.pushCount + 1
              trace := st.trace ++ [Act.push (Ev.streamContinue mid existing)] }) := by
  simp only [runBodyC, pushEv_ffalse, if_true, streamLoop_eq_okRun]

theorem finallyPath_row (sid : String) (st : St) : (finallyPath sid st).row = st.row := rfl

theorem finallyPath_db (sid : String) (st : St) : (finallyPath sid st).db = st.db := rfl

theorem finallyPath_trace (sid : String) (st : St) :
    (finallyPath sid st).trace = st.trace ++ [Act.providerClose] := rfl

theorem finallyPath_mgr (sid : String) (st : St) :
    (finallyPath sid st).mgr = st.mgr.stop_streaming sid := rfl

/-- C4: a Token Source failure after a prefix of fragments finalizes the
record with the error message and the accumulated text preserved, the sink
receives the error event last, and the run deregisters. -/
theorem c4_source_error_finalizes (sid amid e : String) (tokens : List String)
    (db0 : DB) (mgr0 : StreamManager) :
    (stream_llm_response sid amid tokens (some e) true ffalse none db0 mgr0).2
      = Except.error e ∧
    (stream_llm_response sid amid tokens (some e) true ffalse none db0 mgr0).1.row
      = ⟨sid, joinAll tokens, some e, false⟩ ∧
    dbGet (stream_llm_response sid amid tokens (some e) true ffalse none db0 mgr0).1.db amid
      = some ⟨sid, joinAll tokens, some e, false⟩ ∧
    (pushes (stream_llm_response sid amid tokens (some e) true ffalse none db0 mgr0).1.trace).getLast?
      = some (Ev.streamError amid e (some (joinAll tokens))) ∧
    (stream_llm_response sid amid tokens (some e) true ffalse none db0 mgr0).1.mgr.is_streaming sid
      = false := by
  simp only [stream_llm_response, runBody_true_ffalse_termErr, exceptPath_true_ffalse,
    Nat.zero_add, List.singleton_append]
  have hc : (okRun amid true tokens
      { db := dbSet db0 amid (⟨sid, "", none, true⟩ : MessageRec)
        mgr := mgr0.start_streaming sid
        row := ⟨sid, "", none, true⟩
        content := ""
        pushCount := 1
        trace := [Act.dbWrite ⟨sid, "", none, true⟩, Act.push (Ev.streamStart amid)] }).content
      = joinAll tokens := by
    rw [okRun_content]
    exact String.empty_append _
  have hs : (okRun amid true tokens
      { db := dbSet db0 amid (⟨sid, "", none, true⟩ : MessageRec)
        mgr := mgr0.start_streaming sid
        row := ⟨sid, "", none, true⟩
        content := ""
        pushCount := 1
        trace := [Act.dbWrite ⟨sid, "", none, true⟩, Act.push (Ev.streamStart amid)] }).row.sessionId
      = sid := by
    rw [okRun_sessionId]
  refine ⟨trivial, ?_, ?_, ?_, ?_⟩
  · rw [finallyPath_row]
    simp [hc, hs]
  · rw [finallyPath_db]
    simp only []
    rw [dbGet_dbSet_self]
    simp [hc, hs]
  · rw [finallyPath_trace]
    simp only []
    rw [pushes_append, pushes_close, List.append_nil, pushes_append, pushes_append,
      pushes_dbWrite, List.append_nil, pushes_push, hc, List.getLast?_concat]
  · rw [finallyPath_mgr]
    exact stop_streaming_not _ _

/-- C6: the mock scenario: fragments "Hel", "lo" ending normally give a
finalized record "Hello" and the sink receives start, the two token events
with running totals, and the completion event. -/
theorem c6_hello_scenario :
    (stream_llm_response "s1" "m1" ["Hel", "lo"] none true ffalse none [] ⟨[], []⟩).2
      = Except.ok "Hello" ∧
    (stream_llm_response "s1" "m1" ["Hel", "lo"] none true ffalse none [] ⟨[], []⟩).1.row
      = ⟨"s1", "Hello", none, false⟩ ∧
    pushes (stream_llm_response "s1" "m1" ["Hel", "lo"] none true ffalse none [] ⟨[], []⟩).1.trace
      = [Ev.streamStart "m1", Ev.token "m1" "Hel" "Hel", Ev.token "m1" "lo" "Hello",
         Ev.streamComplete "m1" "Hello"] ∧
    dbGet (stream_llm_response "s1" "m1" ["Hel", "lo"] none true ffalse none [] ⟨[], []⟩).1.db "m1"
      = some ⟨"s1", "Hello", none, false⟩ := by
  refine ⟨rfl, rfl, rfl, rfl⟩

/-- C7: resuming a message whose record has isPartial true seeds the run
with the stored text and appends the new fragments to the same record:
no new record is created and other records are untouched. -/
theorem c7_resume_extends (mid : String) (tokens : List String) (db0 : DB)
    (mgr0 : StreamManager) (msg : MessageRec)
    (hget : dbGet db0 mid = some msg) (hp : msg.isPartial = true) :
    (continue_stream mid tokens none true ffalse none db0 mgr0).2
      = Except.ok (msg.text ++ joinAll tokens) ∧
    (continue_stream mid tokens none true ffalse none db0 mgr0).1.row.text
      = msg.text ++ joinAll tokens ∧
    (continue_stream mid tokens none true ffalse none db0 mgr0).1.row.isPartial = false ∧
    (continue_stream mid tokens none true ffalse none db0 mgr0).1.row.sessionId
      = msg.sessionId ∧
    dbGet (continue_stream mid tokens none true ffalse none db0 mgr0).1.db mid
      = some (continue_stream mid tokens none true ffalse none db0 mgr0).1.row ∧
    (continue_stream mid tokens none true ffalse none db0 mgr0).1.db.length = db0.length ∧
    (∀ k, k ≠ mid →
      dbGet (continue_stream mid tokens none true ffalse none db0 mgr0).1.db k
        = dbGet db0 k) := by
  have hany : db0.any (fun p => p.1 == mid) = true := dbGet_any db0 mid msg hget
  simp only [continue_stream, hget, hp, if_true, runBodyC_true_ffalse_ok,
    completePathC_true_ffalse, Nat.zero_add, List.nil_append]
  have hc : (okRun mid true tokens
      { db := db0
        mgr := mgr0.start_streaming msg.sessionId
        row := msg
        content := msg.text
        pushCount := 1
        trace := [Act.push (Ev.streamContinue mid msg.text)] }).content
      = msg.text ++ joinAll tokens := okRun_content mid true tokens _
  have ht : (okRun mid true tokens
      { db := db0
        mgr := mgr0.start_streaming msg.sessionId
        row := msg
        content := msg.text
        pushCount := 1
        trace := [Act.push (Ev.streamContinue mid msg.text)] }).row.text
      = (okRun mid true tokens
      { db := db0
        mgr := mgr0.start_streaming msg.sessionId
        row := msg
        content := msg.text
        pushCount := 1
        trace := [Act.push (Ev.streamContinue mid msg.text)] }).content :=
    okRun_row_text mid true tokens _ rfl
  have hs : (okRun mid true tokens
      { db := db0
        mgr := mgr0.start_streaming msg.sessionId
        row := msg
        content := msg.text
        pushCount := 1
        trace := [Act.push (Ev.streamContinue mid msg.text)] }).row.sessionId
      = msg.sessionId := okRun_sessionId mid true tokens _
  have hdbself : dbGet (okRun mid true tokens
      { db := db0
        mgr := mgr0.start_streaming msg.sessionId
        row := msg
        content := msg.text
        pushCount := 1
        trace := [Act.push (Ev.streamContinue mid msg.text)] }).db mid
      = some (okRun mid true tokens
      { db := db0
        mgr := mgr0.start_streaming msg.sessionId
        row := msg
        content := msg.text
        pushCount := 1
        trace := [Act.push (Ev.streamContinue mid msg.text)] }).row :=
    okRun_db_self mid true tokens _ hget
  have hdbany : (okRun mid true tokens
      { db := db0
        mgr := mgr0.start_streaming msg.sessionId
        row := msg
        content := msg.text
        pushCount := 1
        trace := [Act.push (Ev.streamContinue mid msg.text)] }).db.any
        (fun p => p.1 == mid) = true :=
    okRun_db_any mid true tokens _ hany
  have hdblen : (okRun mid true tokens
      { db := db0
        mgr := mgr0.start_streaming msg.sessionId
        row := msg
        content := msg.text
        pushCount := 1
        trace := [Act.push (Ev.streamContinue mid msg.text)] }).db.length = db0.length :=
    okRun_db_length mid true tokens _ hany
  refine ⟨?_, ?_, ?_, ?_, ?_, ?_, ?_⟩
  · rw [hc]
  · rw [finallyPath_row]
    simp only []
    rw [ht, hc]
  · rw [finallyPath_row]
  · rw [finallyPath_row]
    simp only []
    rw [hs]
  · rw [finallyPath_db, finallyPath_row]
    simp only []
    rw [dbGet_dbSet_self]
  · rw [finallyPath_db]
    simp only []
    rw [dbSet_length_of_any _ _ _ hdbany, hdblen]
  · intro k hk
    rw [finallyPath_db]
    simp only []
    rw [dbGet_dbSet_ne _ _ _ _ hk, okRun_db_frame _ _ _ _ _ hk]

/-- Witness for C7 at the spec scenario: stored text "Hel", source ["lo"],
final text "Hello" on the same record. -/
theorem c7_resume_extends_witness :
    (continue_stream "m1" ["lo"] none true ffalse none
        [("m1", ⟨"s1", "Hel", none, true⟩)] ⟨[], []⟩).2
      = Except.ok ("Hel" ++ joinAll ["lo"]) ∧
    (continue_stream "m1" ["lo"] none true ffalse none
        [("m1", ⟨"s1", "Hel", none, true⟩)] ⟨[], []⟩).1.row.text
      = "Hel" ++ joinAll ["lo"] ∧
    (continue_stream "m1" ["lo"] none true ffalse none
        [("m1", ⟨"s1", "Hel", none, true⟩)] ⟨[], []⟩).1.row.isPartial = false := by
  have h := c7_resume_extends "m1" ["lo"] [("m1", ⟨"s1", "Hel", none, true⟩)] ⟨[], []⟩
    ⟨"s1", "Hel", none, true⟩ rfl rfl
  exact ⟨h.1, h.2.1, h.2.2.1⟩

/-- C1 counterexample: with session "s1" already marked streaming, a second
start for "s1" is not rejected: it runs to completion, creates and
finalizes a new record, i.e. state is mutated and nothing rejects. -/
theorem c1_counterexample :
    StreamManager.is_streaming ⟨[], ["s1"]⟩ "s1" = true ∧
    (stream_llm_response "s1" "m2" ["Hel", "lo"] none true ffalse none [] ⟨[], ["s1"]⟩).2
      = Except.ok "Hello" ∧
    dbGet (stream_llm_response "s1" "m2" ["Hel", "lo"] none true ffalse none [] ⟨[], ["s1"]⟩).1.db "m2"
      = some ⟨"s1", "Hello", none, false⟩ ∧
    pushes (stream_llm_response "s1" "m2" ["Hel", "lo"] none true ffalse none [] ⟨[], ["s1"]⟩).1.trace
      = [Ev.streamStart "m2", Ev.token "m2" "Hel" "Hel", Ev.token "m2" "lo" "Hello",
         Ev.streamComplete "m2" "Hello"] := by
  refine ⟨rfl, rfl, rfl, rfl⟩

/-- C2 counterexample: abort requested before any fragment is pulled (the
aborted event is delivered right after start), yet the run keeps pulling
both fragments, pushes them, and completes with the full text "Hello"
instead of stopping with the empty text. -/
theorem c2_counterexample :
    pushes (stream_llm_response "s1" "m1" ["Hel", "lo"] none true ffalse (some 0) []
        ⟨["s1"], []⟩).1.trace
      = [Ev.streamStart "m1", Ev.streamAborted, Ev.token "m1" "Hel" "Hel",
         Ev.token "m1" "lo" "Hello", Ev.streamComplete "m1" "Hello"] ∧
    (stream_llm_response "s1" "m1" ["Hel", "lo"] none true ffalse (some 0) []
        ⟨["s1"], []⟩).1.row.text = "Hello" ∧
    (stream_llm_response "s1" "m1" ["Hel", "lo"] none true ffalse (some 0) []
        ⟨["s1"], []⟩).1.row.text ≠ "" ∧
    (stream_llm_response "s1" "m1" ["Hel", "lo"] none true ffalse (some 0) []
        ⟨["s1"], []⟩).2 = Except.ok "Hello" := by
  refine ⟨rfl, rfl, by decide, rfl⟩

/-- C3 counterexample: the push of the first token event fails (client
disconnected), and the run does not continue: it takes the error path,
marks the record errored (isPartial false, errorText set), never processes
the second fragment, and the exception propagates. -/
theorem c3_counterexample :
    (stream_llm_response "s1" "m1" ["Hel", "lo"] none true (fun n => n == 1) none []
        ⟨["s1"], []⟩).1.row.errorText = some "WebSocketDisconnect" ∧
    (stream_llm_response "s1" "m1" ["Hel", "lo"] none true (fun n => n == 1) none []
        ⟨["s1"], []⟩).1.row.isPartial = false ∧
    (stream_llm_response "s1" "m1" ["Hel", "lo"] none true (fun n => n == 1) none []
        ⟨["s1"], []⟩).1.row.text = "Hel" ∧
    (stream_llm_response "s1" "m1" ["Hel", "lo"] none true (fun n => n == 1) none []
        ⟨["s1"], []⟩).2 = Except.error "WebSocketDisconnect" := by
  refine ⟨rfl, rfl, rfl, rfl⟩

/-- C9 counterexample: with a run active and a sink attached, a client
disconnect clears the streaming mark too: the registry then reports no
active run and a subsequent abort finds nothing to abort. -/
theorem c9_counterexample :
    StreamManager.is_streaming ⟨["s1"], ["s1"]⟩ "s1" = true ∧
    (StreamManager.disconnect ⟨["s1"], ["s1"]⟩ "s1").is_streaming "s1" = false ∧
    (abort_stream "s1" false (StreamManager.disconnect ⟨["s1"], ["s1"]⟩ "s1")).2.1 = false := by
  refine ⟨rfl, rfl, rfl⟩


theorem maybeAbort_db (sid : String) (ab : Option Nat) (i : Nat) (st : St) :
    (maybeAbort sid ab i st).db = st.db := by
  unfold maybeAbort
  split <;> rfl

theorem maybeAbort_row (sid : String) (ab : Option Nat) (i : Nat) (st : St) :
    (maybeAbort sid ab i st).row = st.row := by
  unfold maybeAbort
  split <;> rfl

theorem maybeAbort_content (sid : String) (ab : Option Nat) (i : Nat) (st : St) :
    (maybeAbort sid ab i st).content = st.content := by
  unfold maybeAbort
  split <;> rfl

theorem maybeAbort_pushCount (sid : String) (ab : Option Nat) (i : Nat) (st : St) :
    (maybeAbort sid ab i st).pushCount = st.pushCount := by
  unfold maybeAbort
  split <;> rfl

theorem streamLoop_core (amid sid : String) (hasWs : Bool) (fails : Nat → Bool)
    (ab : Option Nat) :
    ∀ (toks : List String) (i : Nat) (st : St),
    ((streamLoop amid sid hasWs fails ab i toks st).1.db,
     (streamLoop amid sid hasWs fails ab i toks st).1.row,
     (streamLoop amid sid hasWs fails ab i toks st).1.content,
     (streamLoop amid sid hasWs fails ab i toks st).1.pushCount,
     (streamLoop amid sid hasWs fails ab i toks st).2)
      = coreLoop amid hasWs fails toks st.db st.row st.content st.pushCount := by
  intro toks
  induction toks with
  | nil =>
    intro i st
    simp [streamLoop, coreLoop, maybeAbort_db, maybeAbort_row, maybeAbort_content,
      maybeAbort_pushCount]
  | cons tok rest ih =>
    intro i st
    simp only [streamLoop, coreLoop, maybeAbort_db, maybeAbort_row, maybeAbort_content,
      maybeAbort_pushCount]
    cases hws : hasWs with
    | false =>
      rw [hws] at ih
      simp only [pushEv, if_false, Bool.false_eq_true]
      rw [ih]
    | true =>
      rw [hws] at ih
      by_cases hf : fails st.pushCount
      · simp only [pushEv, if_true, maybeAbort_pushCount, hf]
      · simp only [pushEv, if_true, maybeAbort_pushCount, hf, if_false, Bool.false_eq_true]
        rw [ih]

theorem exceptPath_obs (amid : String) (hasWs : Bool) (fails : Nat → Bool) (e : String)
    (d : DB) (r : MessageRec) (c : String) (p : Nat)
    (m m2 : StreamManager) (t t2 : List Act) :
    (exceptPath amid hasWs fails e ⟨d, m, r, c, p, t⟩).1.db
      = (exceptPath amid hasWs fails e ⟨d, m2, r, c, p, t2⟩).1.db ∧
    (exceptPath amid hasWs fails e ⟨d, m, r, c, p, t⟩).1.row
      = (exceptPath amid hasWs fails e ⟨d, m2, r, c, p, t2⟩).1.row ∧
    (exceptPath amid hasWs fails e ⟨d, m, r, c, p, t⟩).1.content
      = (exceptPath amid hasWs fails e ⟨d, m2, r, c, p, t2⟩).1.content ∧
    (exceptPath amid hasWs fails e ⟨d, m, r, c, p, t⟩).2
      = (exceptPath amid hasWs fails e ⟨d, m2, r, c, p, t2⟩).2 := by
  unfold exceptPath
  cases hasWs
  · simp [pushEv]
  · by_cases hf : fails p <;> simp [pushEv, hf]

theorem completePath_obs (amid : String) (hasWs : Bool) (fails : Nat → Bool)
    (d : DB) (r : MessageRec) (c : String) (p : Nat)
    (m m2 : StreamManager) (t t2 : List Act) :
    (completePath amid hasWs fails ⟨d, m, r, c, p, t⟩).1.db
      = (completePath amid hasWs fails ⟨d, m2, r, c, p, t2⟩).1.db ∧
    (completePath amid hasWs fails ⟨d, m, r, c, p, t⟩).1.row
      = (completePath amid hasWs fails ⟨d, m2, r, c, p, t2⟩).1.row ∧
    (completePath amid hasWs fails ⟨d, m, r, c, p, t⟩).1.content
      = (completePath amid hasWs fails ⟨d, m2, r, c, p, t2⟩).1.content ∧
    (completePath amid hasWs fails ⟨d, m, r, c, p, t⟩).2
      = (completePath amid hasWs fails ⟨d, m2, r, c, p, t2⟩).2 := by
  unfold completePath
  cases hasWs
  · simp [pushEv]
  · by_cases hf : fails p
    · simp only [pushEv, hf, if_true]
      exact exceptPath_obs _ _ _ _ _ _ _ _ _ _ _ _
    · simp [pushEv, hf]

theorem runBody_eq_afterStart (amid sid : String) (tokens : List String)
    (termErr : Option String) (hasWs : Bool) (fails : Nat → Bool)
    (abortAt : Option Nat) (st : St) :
    runBody amid sid tokens termErr hasWs fails abortAt st =
      match pushEv hasWs fails st (Ev.streamStart amid) with
      | (st1, some e) => exceptPath amid hasWs fails e st1
      | (st1, none) => afterStart amid sid tokens termErr hasWs fails abortAt st1 := by
  unfold runBody afterStart
  rcases hp : pushEv hasWs fails st (Ev.streamStart amid) with ⟨s1, o⟩
  cases o <;> rfl

theorem afterStart_obs (amid sid : String) (tokens : List String)
    (termErr : Option String) (hasWs : Bool) (fails : Nat → Bool)
    (ab ab2 : Option Nat) (d : DB) (r : MessageRec) (c : String) (p : Nat)
    (m m2 : StreamManager) (t t2 : List Act) :
    (afterStart amid sid tokens termErr hasWs fails ab ⟨d, m, r, c, p, t⟩).1.db
      = (afterStart amid sid tokens termErr hasWs fails ab2 ⟨d, m2, r, c, p, t2⟩).1.db ∧
    (afterStart amid sid tokens termErr hasWs fails ab ⟨d, m, r, c, p, t⟩).1.row
      = (afterStart amid sid tokens termErr hasWs fails ab2 ⟨d, m2, r, c, p, t2⟩).1.row ∧
    (afterStart amid sid tokens termErr hasWs fails ab ⟨d, m, r, c, p, t⟩).1.content
      = (afterStart amid sid tokens termErr hasWs fails ab2 ⟨d, m2, r, c, p, t2⟩).1.content ∧
    (afterStart amid sid tokens termErr hasWs fails ab ⟨d, m, r, c, p, t⟩).2
      = (afterStart amid sid tokens termErr hasWs fails ab2 ⟨d, m2, r, c, p, t2⟩).2 := by
  have hA := streamLoop_core amid sid hasWs fails ab tokens 0 ⟨d, m, r, c, p, t⟩
  have hB := streamLoop_core amid sid hasWs fails ab2 tokens 0 ⟨d, m2, r, c, p, t2⟩
  have hAB := hA.trans hB.symm
  unfold afterStart
  rcases hLA : streamLoop amid sid hasWs fails ab 0 tokens ⟨d, m, r, c, p, t⟩ with ⟨sA, oA⟩
  rcases hLB : streamLoop amid sid hasWs fails ab2 0 tokens ⟨d, m2, r, c, p, t2⟩ with ⟨sB, oB⟩
  rw [hLA, hLB] at hAB
  simp only [Prod.mk.injEq] at hAB
  obtain ⟨hdb, hrow, hcont, hpc, ho⟩ := hAB
  cases sA with
  | mk dA mA rA cA pA tA =>
  cases sB with
  | mk dB mB rB cB pB tB =>
  simp only [] at hdb hrow hcont hpc ho
  subst hdb
  subst hrow
  subst hcont
  subst hpc
  subst ho
  cases oA with
  | some e => exact exceptPath_obs amid hasWs fails e _ _ _ _ _ _ _ _
  | none =>
    cases termErr with
    | some e => exact exceptPath_obs amid hasWs fails e _ _ _ _ _ _ _ _
    | none => exact completePath_obs amid hasWs fails _ _ _ _ _ _ _ _

theorem runBody_obs (amid sid : String) (tokens : List String)
    (termErr : Option String) (hasWs : Bool) (fails : Nat → Bool)
    (ab ab2 : Option Nat) (d : DB) (r : MessageRec) (c : String) (p : Nat)
    (m m2 : StreamManager) (t t2 : List Act) :
    (runBody amid sid tokens termErr hasWs fails ab ⟨d, m, r, c, p, t⟩).1.db
      = (runBody amid sid tokens termErr hasWs fails ab2 ⟨d, m2, r, c, p, t2⟩).1.db ∧
    (runBody amid sid tokens termErr hasWs fails ab ⟨d, m, r, c, p, t⟩).1.row
      = (runBody amid sid tokens termErr hasWs fails ab2 ⟨d, m2, r, c, p, t2⟩).1.row ∧
    (runBody amid sid tokens termErr hasWs fails ab ⟨d, m, r, c, p, t⟩).1.content
      = (runBody amid sid tokens termErr hasWs fails ab2 ⟨d, m2, r, c, p, t2⟩).1.content ∧
    (runBody amid sid tokens termErr hasWs fails ab ⟨d, m, r, c, p, t⟩).2
      = (runBody amid sid tokens termErr hasWs fails ab2 ⟨d, m2, r, c, p, t2⟩).2 := by
  rw [runBody_eq_afterStart, runBody_eq_afterStart]
  cases hasWs
  · simp only [pushEv, if_false, Bool.false_eq_true]
    exact afterStart_obs amid sid tokens termErr false fails ab ab2 d r c p m m2 t t2
  · by_cases hf : fails p
    · simp only [pushEv, if_true, hf]
      exact exceptPath_obs amid true fails _ _ _ _ _ _ _ _ _
    · simp only [pushEv, if_true, hf, if_false, Bool.false_eq_true]
      exact afterStart_obs amid sid tokens termErr true fails ab ab2 d r c (p + 1) m m2 _ _

theorem finallyPath_content (sid : String) (st : St) :
    (finallyPath sid st).content = st.content := rfl

/-- C2 amended: `abort_stream` on a streaming session returns True, clears
the mark and notifies the sink, but the run never observes it: the
record, the store, the accumulated content and the outcome of the run are
identical with or without an abort request at any fragment boundary. -/
theorem c2_amended (sid amid : String) (tokens : List String) (termErr : Option String)
    (hasWs : Bool) (fails : Nat → Bool) (ab : Option Nat) (db0 : DB)
    (mgr0 : StreamManager) :
    (stream_llm_response sid amid tokens termErr hasWs fails ab db0 mgr0).2
      = (stream_llm_response sid amid tokens termErr hasWs fails none db0 mgr0).2 ∧
    (stream_llm_response sid amid tokens termErr hasWs fails ab db0 mgr0).1.row
      = (stream_llm_response sid amid tokens termErr hasWs fails none db0 mgr0).1.row ∧
    (stream_llm_response sid amid tokens termErr hasWs fails ab db0 mgr0).1.db
      = (stream_llm_response sid amid tokens termErr hasWs fails none db0 mgr0).1.db ∧
    (stream_llm_response sid amid tokens termErr hasWs fails ab db0 mgr0).1.content
      = (stream_llm_response sid amid tokens termErr hasWs fails none db0 mgr0).1.content ∧
    (∀ m : StreamManager, (abort_stream sid false m).2.1 = m.is_streaming sid ∧
      (abort_stream sid false m).1.is_streaming sid = false) := by
  have h := runBody_obs amid sid tokens termErr hasWs fails ab none
    (dbSet db0 amid ⟨sid, "", none, true⟩) ⟨sid, "", none, true⟩ "" 0
    (mgr0.start_streaming sid) (mgr0.start_streaming sid)
    [Act.dbWrite ⟨sid, "", none, true⟩] [Act.dbWrite ⟨sid, "", none, true⟩]
  simp only [stream_llm_response, finallyPath_row, finallyPath_db, finallyPath_content]
  exact ⟨h.2.2.2, h.2.1, h.1, h.2.2.1,
    fun m => ⟨abort_stream_found sid false m, abort_stream_stops sid m⟩⟩


theorem pushEv_mgr_canon (hasWs : Bool) (fails : Nat → Bool) (e : Ev)
    (d : DB) (r : MessageRec) (c : String) (p : Nat) (t : List Act)
    (m : StreamManager) :
    pushEv hasWs fails ⟨d, m, r, c, p, t⟩ e
      = ({ (pushEv hasWs fails ⟨d, ⟨[], []⟩, r, c, p, t⟩ e).1 with mgr := m },
         (pushEv hasWs fails ⟨d, ⟨[], []⟩, r, c, p, t⟩ e).2) := by
  unfold pushEv
  cases hasWs
  · rfl
  · by_cases hf : fails p <;> simp [hf]

theorem pushEv_mgr_pres (hasWs : Bool) (fails : Nat → Bool) (st : St) (e : Ev) :
    (pushEv hasWs fails st e).1.mgr = st.mgr := by
  unfold pushEv
  cases hasWs
  · rfl
  · by_cases hf : fails st.pushCount <;> simp [hf]

theorem streamLoop_mgr_canon (amid sid : String) (hasWs : Bool) (fails : Nat → Bool) :
    ∀ (toks : List String) (i : Nat) (d : DB) (r : MessageRec) (c : String)
      (p : Nat) (t : List Act) (m : StreamManager),
    streamLoop amid sid hasWs fails none i toks ⟨d, m, r, c, p, t⟩
      = ({ (streamLoop amid sid hasWs fails none i toks ⟨d, ⟨[], []⟩, r, c, p, t⟩).1
            with mgr := m },
         (streamLoop amid sid hasWs fails none i toks ⟨d, ⟨[], []⟩, r, c, p, t⟩).2) := by
  intro toks
  induction toks with
  | nil =>
    intro i d r c p t m
    simp [streamLoop, maybeAbort_none]
  | cons tok rest ih =>
    intro i d r c p t m
    simp only [streamLoop, maybeAbort_none]
    cases hws : hasWs with
    | false =>
      rw [hws] at ih
      simp only [pushEv, if_false, Bool.false_eq_true]
      exact ih (i + 1) _ _ _ _ _ m
    | true =>
      rw [hws] at ih
      by_cases hf : fails p
      · simp only [pushEv, if_true, hf]
      · simp only [pushEv, if_true, hf, if_false, Bool.false_eq_true]
        exact ih (i + 1) _ _ _ _ _ m

theorem streamLoop_none_mgr_pres (amid sid : String) (hasWs : Bool) (fails : Nat → Bool)
    (toks : List String) (i : Nat) (st : St) :
    (streamLoop amid sid hasWs fails none i toks st).1.mgr = st.mgr := by
  cases st with
  | mk d m r c p t =>
    rw [streamLoop_mgr_canon]

theorem exceptPath_mgr_canon (amid : String) (hasWs : Bool) (fails : Nat → Bool)
    (e : String) (d : DB) (r : MessageRec) (c : String) (p : Nat) (t : List Act)
    (m : StreamManager) :
    exceptPath amid hasWs fails e ⟨d, m, r, c, p, t⟩
      = ({ (exceptPath amid hasWs fails e ⟨d, ⟨[], []⟩, r, c, p, t⟩).1 with mgr := m },
         (exceptPath amid hasWs fails e ⟨d, ⟨[], []⟩, r, c, p, t⟩).2) := by
  unfold exceptPath
  cases hasWs
  · simp [pushEv]
  · by_cases hf : fails p <;> simp [pushEv, hf]

theorem completePath_mgr_canon (amid : String) (hasWs : Bool) (fails : Nat → Bool)
    (d : DB) (r : MessageRec) (c : String) (p : Nat) (t : List Act)
    (m : StreamManager) :
    completePath amid hasWs fails ⟨d, m, r, c, p, t⟩
      = ({ (completePath amid hasWs fails ⟨d, ⟨[], []⟩, r, c, p, t⟩).1 with mgr := m },
         (completePath amid hasWs fails ⟨d, ⟨[], []⟩, r, c, p, t⟩).2) := by
  unfold completePath
  cases hasWs
  · simp [pushEv]
  · by_cases hf : fails p
    · simp only [pushEv, if_true, hf]
      exact exceptPath_mgr_canon _ _ _ _ _ _ _ _ _ _
    · simp [pushEv, hf]

theorem afterStart_mgr_canon (amid sid : String) (tokens : List String)
    (termErr : Option String) (hasWs : Bool) (fails : Nat → Bool)
    (d : DB) (r : MessageRec) (c : String) (p : Nat) (t : List Act)
    (m : StreamManager) :
    afterStart amid sid tokens termErr hasWs fails none ⟨d, m, r, c, p, t⟩
      = ({ (afterStart amid sid tokens termErr hasWs fails none ⟨d, ⟨[], []⟩, r, c, p, t⟩).1
            with mgr := m },
         (afterStart amid sid tokens termErr hasWs fails none ⟨d, ⟨[], []⟩, r, c, p, t⟩).2) := by
  unfold afterStart
  rcases hL : streamLoop amid sid hasWs fails none 0 tokens ⟨d, ⟨[], []⟩, r, c, p, t⟩
    with ⟨sC, oC⟩
  have hLmgr : sC.mgr = ⟨[], []⟩ := by
    have := streamLoop_none_mgr_pres amid sid hasWs fails tokens 0 ⟨d, ⟨[], []⟩, r, c, p, t⟩
    rw [hL] at this
    exact this
  have hLm := streamLoop_mgr_canon amid sid hasWs fails tokens 0 d r c p t m
  rw [hL] at hLm
  rw [hLm]
  cases sC with
  | mk scd scm scr scc scp sct =>
    simp only [] at hLmgr
    subst hLmgr
    cases oC with
    | some e2 => exact exceptPath_mgr_canon amid hasWs fails e2 scd scr scc scp sct m
    | none =>
      cases termErr with
      | some e2 => exact exceptPath_mgr_canon amid hasWs fails e2 scd scr scc scp sct m
      | none => exact completePath_mgr_canon amid hasWs fails scd scr scc scp sct m

theorem runBody_mgr_canon (amid sid : String) (tokens : List String)
    (termErr : Option String) (hasWs : Bool) (fails : Nat → Bool)
    (d : DB) (r : MessageRec) (c : String) (p : Nat) (t : List Act)
    (m : StreamManager) :
    runBody amid sid tokens termErr hasWs fails none ⟨d, m, r, c, p, t⟩
      = ({ (runBody amid sid tokens termErr hasWs fails none ⟨d, ⟨[], []⟩, r, c, p, t⟩).1
            with mgr := m },
         (runBody amid sid tokens termErr hasWs fails none ⟨d, ⟨[], []⟩, r, c, p, t⟩).2) := by
  rw [runBody_eq_afterStart, runBody_eq_afterStart]
  cases hasWs
  · simp only [pushEv, if_false, Bool.false_eq_true]
    exact afterStart_mgr_canon amid sid tokens termErr false fails d r c p t m
  · by_cases hf : fails p
    · simp only [pushEv, if_true, hf]
      exact exceptPath_mgr_canon amid true fails _ d r c (p + 1) _ m
    · simp only [pushEv, if_true, hf, if_false, Bool.false_eq_true]
      exact afterStart_mgr_canon amid sid tokens termErr true fails d r c (p + 1)
        (t ++ [Act.push (Ev.streamStart amid)]) m

theorem stream_llm_response_mgr_canon (sid amid : String) (tokens : List String)
    (termErr : Option String) (hasWs : Bool) (fails : Nat → Bool) (db0 : DB)
    (mgr0 : StreamManager) :
    stream_llm_response sid amid tokens termErr hasWs fails none db0 mgr0
      = ({ (stream_llm_response sid amid tokens termErr hasWs fails none db0 ⟨[], []⟩).1
            with mgr := (mgr0.start_streaming sid).stop_streaming sid },
         (stream_llm_response sid amid tokens termErr hasWs fails none db0 ⟨[], []⟩).2) := by
  simp only [stream_llm_response]
  rw [runBody_mgr_canon amid sid tokens termErr hasWs fails
    (dbSet db0 amid ⟨sid, "", none, true⟩) ⟨sid, "", none, true⟩ "" 0
    [Act.dbWrite ⟨sid, "", none, true⟩] (mgr0.start_streaming sid)]
  rw [runBody_mgr_canon amid sid tokens termErr hasWs fails
    (dbSet db0 amid ⟨sid, "", none, true⟩) ⟨sid, "", none, true⟩ "" 0
    [Act.dbWrite ⟨sid, "", none, true⟩] ((StreamManager.mk [] []).start_streaming sid)]
  rfl

theorem exceptPathC_mgr_canon (mid : String) (hasWs : Bool) (fails : Nat → Bool)
    (e : String) (d : DB) (r : MessageRec) (c : String) (p : Nat) (t : List Act)
    (m : StreamManager) :
    exceptPathC mid hasWs fails e ⟨d, m, r, c, p, t⟩
      = ({ (exceptPathC mid hasWs fails e ⟨d, ⟨[], []⟩, r, c, p, t⟩).1 with mgr := m },
         (exceptPathC mid hasWs fails e ⟨d, ⟨[], []⟩, r, c, p, t⟩).2) := by
  unfold exceptPathC
  cases hasWs
  · simp [pushEv]
  · by_cases hf : fails p <;> simp [pushEv, hf]

theorem completePathC_mgr_canon (mid : String) (hasWs : Bool) (fails : Nat → Bool)
    (d : DB) (r : MessageRec) (c : String) (p : Nat) (t : List Act)
    (m : StreamManager) :
    completePathC mid hasWs fails ⟨d, m, r, c, p, t⟩
      = ({ (completePathC mid hasWs fails ⟨d, ⟨[], []⟩, r, c, p, t⟩).1 with mgr := m },
         (completePathC mid hasWs fails ⟨d, ⟨[], []⟩, r, c, p, t⟩).2) := by
  unfold completePathC
  cases hasWs
  · simp [pushEv]
  · by_cases hf : fails p
    · simp only [pushEv, if_true, hf]
      exact exceptPathC_mgr_canon _ _ _ _ _ _ _ _ _ _
    · simp [pushEv, hf]

theorem runBodyC_eq_afterStartC (mid sid existing : String) (tokens : List String)
    (termErr : Option String) (hasWs : Bool) (fails : Nat → Bool)
    (abortAt : Option Nat) (st : St) :
    runBodyC mid sid existing tokens termErr hasWs fails abortAt st =
      match pushEv hasWs fails st (Ev.streamContinue mid existing) with
      | (st1, some _) => (st1, Except.error "NameError")
      | (st1, none) => afterStartC mid sid tokens termErr hasWs fails abortAt st1 := by
  unfold runBodyC afterStartC
  rcases hp : pushEv hasWs fails st (Ev.streamContinue mid existing) with ⟨s1, o⟩
  cases o <;> rfl

theorem afterStartC_mgr_canon (mid sid : String) (tokens : List String)
    (termErr : Option String) (hasWs : Bool) (fails : Nat → Bool)
    (d : DB) (r : MessageRec) (c : String) (p : Nat) (t : List Act)
    (m : StreamManager) :
    afterStartC mid sid tokens termErr hasWs fails none ⟨d, m, r, c, p, t⟩
      = ({ (afterStartC mid sid tokens termErr hasWs fails none ⟨d, ⟨[], []⟩, r, c, p, t⟩).1
            with mgr := m },
         (afterStartC mid sid tokens termErr hasWs fails none ⟨d, ⟨[], []⟩, r, c, p, t⟩).2) := by
  unfold afterStartC
  rcases hL : streamLoop mid sid hasWs fails none 0 tokens ⟨d, ⟨[], []⟩, r, c, p, t⟩
    with ⟨sC, oC⟩
  have hLmgr : sC.mgr = ⟨[], []⟩ := by
    have := streamLoop_none_mgr_pres mid sid hasWs fails tokens 0 ⟨d, ⟨[], []⟩, r, c, p, t⟩
    rw [hL] at this
    exact this
  have hLm := streamLoop_mgr_canon mid sid hasWs fails tokens 0 d r c p t m
  rw [hL] at hLm
  rw [hLm]
  cases sC with
  | mk scd scm scr scc scp sct =>
    simp only [] at hLmgr
    subst hLmgr
    cases oC with
    | some e2 => exact exceptPathC_mgr_canon mid hasWs fails e2 scd scr scc scp sct m
    | none =>
      cases termErr with
      | some e2 => exact exceptPathC_mgr_canon mid hasWs fails e2 scd scr scc scp sct m
      | none => exact completePathC_mgr_canon mid hasWs fails scd scr scc scp sct m

theorem runBodyC_mgr_canon (mid sid existing : String) (tokens : List String)
    (termErr : Option String) (hasWs : Bool) (fails : Nat → Bool)
    (d : DB) (r : MessageRec) (c : String) (p : Nat) (t : List Act)
    (m : StreamManager) :
    runBodyC mid sid existing tokens termErr hasWs fails none ⟨d, m, r, c, p, t⟩
      = ({ (runBodyC mid sid existing tokens termErr hasWs fails none
              ⟨d, ⟨[], []⟩, r, c, p, t⟩).1 with mgr := m },
         (runBodyC mid sid existing tokens termErr hasWs fails none
            ⟨d, ⟨[], []⟩, r, c, p, t⟩).2) := by
  rw [runBodyC_eq_afterStartC, runBodyC_eq_afterStartC]
  cases hasWs
  · simp only [pushEv, if_false, Bool.false_eq_true]
    exact afterStartC_mgr_canon mid sid tokens termErr false fails d r c p t m
  · by_cases hf : fails p
    · simp only [pushEv, if_true, hf]
    · simp only [pushEv, if_true, hf, if_false, Bool.false_eq_true]
      exact afterStartC_mgr_canon mid sid tokens termErr true fails d r c (p + 1)
        (t ++ [Act.push (Ev.streamContinue mid existing)]) m

theorem continue_stream_mgr_indep (mid : String) (tokens : List String)
    (termErr : Option String) (hasWs : Bool) (fails : Nat → Bool) (db0 : DB)
    (m m2 : StreamManager) :
    (continue_stream mid tokens termErr hasWs fails none db0 m).1.db
      = (continue_stream mid tokens termErr hasWs fails none db0 m2).1.db ∧
    (continue_stream mid tokens termErr hasWs fails none db0 m).1.row
      = (continue_stream mid tokens termErr hasWs fails none db0 m2).1.row ∧
    (continue_stream mid tokens termErr hasWs fails none db0 m).1.content
      = (continue_stream mid tokens termErr hasWs fails none db0 m2).1.content ∧
    (continue_stream mid tokens termErr hasWs fails none db0 m).1.trace
      = (continue_stream mid tokens termErr hasWs fails none db0 m2).1.trace ∧
    (continue_stream mid tokens termErr hasWs fails none db0 m).2
      = (continue_stream mid tokens termErr hasWs fails none db0 m2).2 := by
  unfold continue_stream
  cases hg : dbGet db0 mid with
  | none => exact ⟨rfl, rfl, rfl, rfl, rfl⟩
  | some msg =>
    by_cases hp : msg.isPartial
    · simp only [hp, if_true]
      rw [runBodyC_mgr_canon mid msg.sessionId msg.text tokens termErr hasWs fails
        db0 msg msg.text 0 [] (m.start_streaming msg.sessionId)]
      rw [runBodyC_mgr_canon mid msg.sessionId msg.text tokens termErr hasWs fails
        db0 msg msg.text 0 [] (m2.start_streaming msg.sessionId)]
      exact ⟨rfl, rfl, rfl, rfl, rfl⟩
    · simp only [hp, Bool.false_eq_true, if_false]
      exact ⟨trivial, trivial, trivial, trivial, trivial⟩

/-- C1 amended: neither a start nor a resume consults the registry before
running: whatever the manager state (in particular with the session already
marked streaming), the run proceeds identically: same outcome, same record,
same store writes, same events; the only registry effect of a start is
mark-then-unmark of the session. -/
theorem c1_amended (sid amid mid : String) (tokens : List String)
    (termErr : Option String) (hasWs : Bool) (fails : Nat → Bool) (db0 : DB)
    (m m2 : StreamManager) :
    ((stream_llm_response sid amid tokens termErr hasWs fails none db0 m).2
      = (stream_llm_response sid amid tokens termErr hasWs fails none db0 m2).2 ∧
     (stream_llm_response sid amid tokens termErr hasWs fails none db0 m).1.db
      = (stream_llm_response sid amid tokens termErr hasWs fails none db0 m2).1.db ∧
     (stream_llm_response sid amid tokens termErr hasWs fails none db0 m).1.row
      = (stream_llm_response sid amid tokens termErr hasWs fails none db0 m2).1.row ∧
     (stream_llm_response sid amid tokens termErr hasWs fails none db0 m).1.trace
      = (stream_llm_response sid amid tokens termErr hasWs fails none db0 m2).1.trace ∧
     (stream_llm_response sid amid tokens termErr hasWs fails none db0 m).1.mgr
      = (m.start_streaming sid).stop_streaming sid) ∧
    ((continue_stream mid tokens termErr hasWs fails none db0 m).2
      = (continue_stream mid tokens termErr hasWs fails none db0 m2).2 ∧
     (continue_stream mid tokens termErr hasWs fails none db0 m).1.db
      = (continue_stream mid tokens termErr hasWs fails none db0 m2).1.db ∧
     (continue_stream mid tokens termErr hasWs fails none db0 m).1.row
      = (continue_stream mid tokens termErr hasWs fails none db0 m2).1.row ∧
     (continue_stream mid tokens termErr hasWs fails none db0 m).1.trace
      = (continue_stream mid tokens termErr hasWs fails none db0 m2).1.trace) := by
  have hC := continue_stream_mgr_indep mid tokens termErr hasWs fails db0 m m2
  constructor
  · rw [stream_llm_response_mgr_canon sid amid tokens termErr hasWs fails db0 m,
      stream_llm_response_mgr_canon sid amid tokens termErr hasWs fails db0 m2]
    exact ⟨rfl, rfl, rfl, rfl, rfl⟩
  · exact ⟨hC.2.2.2.2, hC.1, hC.2.1, hC.2.2.2.1⟩

/-- C9 amended: `disconnect` removes the sink association and also clears
the session's streaming mark, so the registry afterwards reports no active
run and an abort request finds nothing; the run itself never reads the
manager, so its writes, record and outcome are unaffected. -/
theorem c9_amended (m : StreamManager) (sid : String) (f : Bool)
    (sid2 amid : String) (tokens : List String) (termErr : Option String)
    (hasWs : Bool) (fails : Nat → Bool) (db0 : DB) :
    (m.disconnect sid).active_connections.contains sid = false ∧
    (m.disconnect sid).is_streaming sid = false ∧
    (abort_stream sid f (m.disconnect sid)).2.1 = false ∧
    ((stream_llm_response sid2 amid tokens termErr hasWs fails none db0 (m.disconnect sid)).2
      = (stream_llm_response sid2 amid tokens termErr hasWs fails none db0 m).2 ∧
     (stream_llm_response sid2 amid tokens termErr hasWs fails none db0 (m.disconnect sid)).1.db
      = (stream_llm_response sid2 amid tokens termErr hasWs fails none db0 m).1.db ∧
     (stream_llm_response sid2 amid tokens termErr hasWs fails none db0 (m.disconnect sid)).1.row
      = (stream_llm_response sid2 amid tokens termErr hasWs fails none db0 m).1.row ∧
     (stream_llm_response sid2 amid tokens termErr hasWs fails none db0 (m.disconnect sid)).1.trace
      = (stream_llm_response sid2 amid tokens termErr hasWs fails none db0 m).1.trace) := by
  refine ⟨disconnect_not_connected m sid, disconnect_not_streaming m sid, ?_, ?_⟩
  · rw [abort_stream_found]
    exact disconnect_not_streaming m sid
  · rw [stream_llm_response_mgr_canon sid2 amid tokens termErr hasWs fails db0 (m.disconnect sid),
      stream_llm_response_mgr_canon sid2 amid tokens termErr hasWs fails db0 m]
    exact ⟨rfl, rfl, rfl, rfl⟩


theorem maybeAbort_closeCount (sid : String) (ab : Option Nat) (i : Nat) (st : St) :
    closeCount (maybeAbort sid ab i st).trace = closeCount st.trace := by
  unfold maybeAbort
  split
  · cases h : (abort_stream sid false st.mgr).2.2 <;>
      simp [h, closeCount_append, closeCount_push, closeCount_nil, closeCount, isClose, List.countP_cons, List.countP_nil]
  · rfl

theorem maybeAbort_countP (sid : String) (ab : Option Nat) (i : Nat) (st : St) :
    List.countP isClose (maybeAbort sid ab i st).trace
      = List.countP isClose st.trace :=
  maybeAbort_closeCount sid ab i st

theorem streamLoop_closeCount (amid sid : String) (hasWs : Bool) (fails : Nat → Bool)
    (ab : Option Nat) :
    ∀ (toks : List String) (i : Nat) (st : St),
    closeCount ((streamLoop amid sid hasWs fails ab i toks st).1.trace)
      = closeCount st.trace := by
  intro toks
  induction toks with
  | nil =>
    intro i st
    simp [streamLoop, maybeAbort_closeCount]
  | cons tok rest ih =>
    intro i st
    simp only [streamLoop]
    cases hws : hasWs with
    | false =>
      rw [hws] at ih
      simp only [pushEv, if_false, Bool.false_eq_true]
      rw [ih]
      simp [closeCount_append, closeCount_dbWrite, maybeAbort_closeCount, maybeAbort_countP, closeCount, isClose, List.countP_cons, List.countP_nil]
    | true =>
      rw [hws] at ih
      by_cases hf : fails ((maybeAbort sid ab i st).pushCount)
      · simp only [pushEv, if_true, hf]
        simp [closeCount_append, closeCount_dbWrite, closeCount_pushFail,
          maybeAbort_closeCount, maybeAbort_countP, closeCount, isClose, List.countP_cons, List.countP_nil]
      · simp only [pushEv, if_true, hf, if_false, Bool.false_eq_true]
        rw [ih]
        simp [closeCount_append, closeCount_dbWrite, closeCount_push,
          maybeAbort_closeCount, maybeAbort_countP, closeCount, isClose, List.countP_cons, List.countP_nil]

theorem exceptPath_closeCount (amid : String) (hasWs : Bool) (fails : Nat → Bool)
    (e : String) (st : St) :
    closeCount ((exceptPath amid hasWs fails e st).1.trace) = closeCount st.trace := by
  unfold exceptPath
  cases hasWs
  · simp [pushEv, closeCount_append, closeCount_dbWrite, closeCount, isClose, List.countP_cons, List.countP_nil]
  · by_cases hf : fails st.pushCount <;>
      simp [pushEv, hf, closeCount_append, closeCount_dbWrite, closeCount_push,
        closeCount_pushFail, closeCount, isClose, List.countP_cons, List.countP_nil]

theorem completePath_closeCount (amid : String) (hasWs : Bool) (fails : Nat → Bool)
    (st : St) :
    closeCount ((completePath amid hasWs fails st).1.trace) = closeCount st.trace := by
  unfold completePath
  cases hasWs
  · simp [pushEv, closeCount_append, closeCount_dbWrite, closeCount, isClose, List.countP_cons, List.countP_nil]
  · by_cases hf : fails st.pushCount
    · simp only [pushEv, if_true, hf]
      rw [exceptPath_closeCount]
      simp [closeCount_append, closeCount_dbWrite, closeCount_pushFail, closeCount, isClose, List.countP_cons, List.countP_nil]
    · simp [pushEv, hf, closeCount_append, closeCount_dbWrite, closeCount_push, closeCount, isClose, List.countP_cons, List.countP_nil]

theorem afterStart_closeCount (amid sid : String) (tokens : List String)
    (termErr : Option String) (hasWs : Bool) (fails : Nat → Bool)
    (ab : Option Nat) (st : St) :
    closeCount ((afterStart amid sid tokens termErr hasWs fails ab st).1.trace)
      = closeCount st.trace := by
  unfold afterStart
  rcases hL : streamLoop amid sid hasWs fails ab 0 tokens st with ⟨s2, o⟩
  have hLc : closeCount s2.trace = closeCount st.trace := by
    have := streamLoop_closeCount amid sid hasWs fails ab tokens 0 st
    rw [hL] at this
    exact this
  cases o with
  | some e => rw [exceptPath_closeCount, hLc]
  | none =>
    cases termErr with
    | some e => rw [exceptPath_closeCount, hLc]
    | none => rw [completePath_closeCount, hLc]

theorem runBody_closeCount (amid sid : String) (tokens : List String)
    (termErr : Option String) (hasWs : Bool) (fails : Nat → Bool)
    (ab : Option Nat) (st : St) :
    closeCount ((runBody amid sid tokens termErr hasWs fails ab st).1.trace)
      = closeCount st.trace := by
  rw [runBody_eq_afterStart]
  cases hws : hasWs with
  | false =>
    simp only [pushEv, if_false, Bool.false_eq_true]
    rw [afterStart_closeCount]
  | true =>
    by_cases hf : fails st.pushCount
    · simp only [pushEv, if_true, hf]
      rw [exceptPath_closeCount]
      simp [closeCount_append, closeCount_pushFail, closeCount, isClose, List.countP_cons, List.countP_nil]
    · simp only [pushEv, if_true, hf, if_false, Bool.false_eq_true]
      rw [afterStart_closeCount]
      simp [closeCount_append, closeCount_push, closeCount, isClose, List.countP_cons, List.countP_nil]

theorem exceptPathC_closeCount (mid : String) (hasWs : Bool) (fails : Nat → Bool)
    (e : String) (st : St) :
    closeCount ((exceptPathC mid hasWs fails e st).1.trace) = closeCount st.trace := by
  unfold exceptPathC
  cases hasWs
  · simp [pushEv, closeCount_append, closeCount_dbWrite, closeCount, isClose, List.countP_cons, List.countP_nil]
  · by_cases hf : fails st.pushCount <;>
      simp [pushEv, hf, closeCount_append, closeCount_dbWrite, closeCount_push,
        closeCount_pushFail, closeCount, isClose, List.countP_cons, List.countP_nil]

theorem completePathC_closeCount (mid : String) (hasWs : Bool) (fails : Nat → Bool)
    (st : St) :
    closeCount ((completePathC mid hasWs fails st).1.trace) = closeCount st.trace := by
  unfold completePathC
  cases hasWs
  · simp [pushEv, closeCount_append, closeCount_dbWrite, closeCount, isClose, List.countP_cons, List.countP_nil]
  · by_cases hf : fails st.pushCount
    · simp only [pushEv, if_true, hf]
      rw [exceptPathC_closeCount]
      simp [closeCount_append, closeCount_dbWrite, closeCount_pushFail, closeCount, isClose, List.countP_cons, List.countP_nil]
    · simp [pushEv, hf, closeCount_append, closeCount_dbWrite, closeCount_push, closeCount, isClose, List.countP_cons, List.countP_nil]

theorem afterStartC_closeCount (mid sid : String) (tokens : List String)
    (termErr : Option String) (hasWs : Bool) (fails : Nat → Bool)
    (ab : Option Nat) (st : St) :
    closeCount ((afterStartC mid sid tokens termErr hasWs fails ab st).1.trace)
      = closeCount st.trace := by
  unfold afterStartC
  rcases hL : streamLoop mid sid hasWs fails ab 0 tokens st with ⟨s2, o⟩
  have hLc : closeCount s2.trace = closeCount st.trace := by
    have := streamLoop_closeCount mid sid hasWs fails ab tokens 0 st
    rw [hL] at this
    exact this
  cases o with
  | some e => rw [exceptPathC_closeCount, hLc]
  | none =>
    cases termErr with
    | some e => rw [exceptPathC_closeCount, hLc]
    | none => rw [completePathC_closeCount, hLc]

theorem runBodyC_closeCount (mid sid existing : String) (tokens : List String)
    (termErr : Option String) (hasWs : Bool) (fails : Nat → Bool)
    (ab : Option Nat) (st : St) :
    closeCount ((runBodyC mid sid existing tokens termErr hasWs fails ab st).1.trace)
      = closeCount st.trace := by
  rw [runBodyC_eq_afterStartC]
  cases hws : hasWs with
  | false =>
    simp only [pushEv, if_false, Bool.false_eq_true]
    rw [afterStartC_closeCount]
  | true =>
    by_cases hf : fails st.pushCount
    · simp only [pushEv, if_true, hf]
      simp [closeCount_append, closeCount_pushFail, closeCount, isClose, List.countP_cons, List.countP_nil]
    · simp only [pushEv, if_true, hf, if_false, Bool.false_eq_true]
      rw [afterStartC_closeCount]
      simp [closeCount_append, closeCount_push, closeCount, isClose, List.countP_cons, List.countP_nil]

/-- C8: every run, on any path to a terminal state (including a failing
final emit and a propagating error), frees the registry slot and closes
the provider client exactly once. -/
theorem c8_cleanup_exactly_once (sid amid mid : String) (tokens : List String)
    (termErr : Option String) (hasWs : Bool) (fails : Nat → Bool)
    (abortAt : Option Nat) (db0 : DB) (mgr0 : StreamManager) :
    (closeCount (stream_llm_response sid amid tokens termErr hasWs fails abortAt db0 mgr0).1.trace
      = 1 ∧
     (stream_llm_response sid amid tokens termErr hasWs fails abortAt db0 mgr0).1.mgr.is_streaming sid
      = false) ∧
    (∀ msg : MessageRec, dbGet db0 mid = some msg → msg.isPartial = true →
      closeCount (continue_stream mid tokens termErr hasWs fails abortAt db0 mgr0).1.trace
        = 1 ∧
      (continue_stream mid tokens termErr hasWs fails abortAt db0 mgr0).1.mgr.is_streaming
        msg.sessionId = false) := by
  constructor
  · constructor
    · simp only [stream_llm_response, finallyPath_trace]
      rw [closeCount_append, runBody_closeCount]
      rfl
    · simp only [stream_llm_response, finallyPath_mgr]
      exact stop_streaming_not _ _
  · intro msg hget hp
    simp only [continue_stream, hget, hp, if_true]
    constructor
    · rw [finallyPath_trace, closeCount_append, runBodyC_closeCount]
      rfl
    · rw [finallyPath_mgr]
      exact stop_streaming_not _ _

/-- Witness for C8: a run with a token-source error and a failing final
emit still closes once and frees the slot, and so does a resumed run. -/
theorem c8_cleanup_exactly_once_witness :
    (closeCount (stream_llm_response "s1" "m1" ["Hel"] (some "boom") true
        (fun n => n == 2) none [] ⟨[], []⟩).1.trace = 1 ∧
     (stream_llm_response "s1" "m1" ["Hel"] (some "boom") true
        (fun n => n == 2) none [] ⟨[], []⟩).1.mgr.is_streaming "s1" = false) ∧
    (closeCount (continue_stream "m1" ["lo"] none true (fun n => n == 2) none
        [("m1", ⟨"s1", "Hel", none, true⟩)] ⟨[], []⟩).1.trace = 1 ∧
     (continue_stream "m1" ["lo"] none true (fun n => n == 2) none
        [("m1", ⟨"s1", "Hel", none, true⟩)] ⟨[], []⟩).1.mgr.is_streaming "s1" = false) := by
  have h := c8_cleanup_exactly_once "s1" "m1" "m1" ["Hel"] (some "boom") true
    (fun n => n == 2) none [] ⟨[], []⟩
  have h2 := c8_cleanup_exactly_once "s1" "m1" "m1" ["lo"] none true
    (fun n => n == 2) none [("m1", ⟨"s1", "Hel", none, true⟩)] ⟨[], []⟩
  exact ⟨h.1, h2.2 ⟨"s1", "Hel", none, true⟩ rfl rfl⟩


theorem streamLoop_firstFail (amid sid : String) (fails : Nat → Bool) :
    ∀ (pre : List String) (t : String) (rest : List String) (i : Nat) (st : St),
    (∀ k, k < pre.length → fails (st.pushCount + k) = false) →
    fails (st.pushCount + pre.length) = true →
    st.row.text = st.content →
    ∃ stB, streamLoop amid sid true fails none i (pre ++ t :: rest) st
        = (stB, some "WebSocketDisconnect") ∧
      stB.content = st.content ++ (joinAll pre ++ t) ∧
      stB.row.text = stB.content ∧
      stB.row.errorText = none ∧
      stB.row.isPartial = st.row.isPartial ∧
      stB.row.sessionId = st.row.sessionId ∧
      stB.pushCount = st.pushCount + pre.length + 1 := by
  intro pre
  induction pre with
  | nil =>
    intro t rest i st hok hbad hrt
    simp only [List.length_nil, Nat.add_zero] at hbad
    refine ⟨⟨dbSet st.db amid { st.row with text := st.content ++ t, errorText := none },
      st.mgr, { st.row with text := st.content ++ t, errorText := none },
      st.content ++ t, st.pushCount + 1,
      st.trace ++ [Act.dbWrite { st.row with text := st.content ++ t, errorText := none }]
        ++ [Act.pushFail (Ev.token amid t (st.content ++ t))]⟩, ?_, ?_, ?_, ?_, ?_, ?_, ?_⟩
    · rw [List.nil_append, streamLoop, maybeAbort_none]
      simp only [pushEv, if_true, hbad]
    · simp only [joinAll_nil, String.empty_append]
    · rfl
    · rfl
    · rfl
    · rfl
    · simp
  | cons p pre2 ih =>
    intro t rest i st hok hbad hrt
    have h0 : fails st.pushCount = false := by
      have := hok 0 (by simp)
      rwa [Nat.add_zero] at this
    obtain ⟨stB, heq, hcont, hrt2, herr, hpart, hsess, hpc⟩ :=
      ih t rest (i + 1)
        ⟨dbSet st.db amid { st.row with text := st.content ++ p, errorText := none },
          st.mgr, { st.row with text := st.content ++ p, errorText := none },
          st.content ++ p, st.pushCount + 1,
          st.trace ++ [Act.dbWrite { st.row with text := st.content ++ p, errorText := none }]
            ++ [Act.push (Ev.token amid p (st.content ++ p))]⟩
        (by
          intro k hk
          have := hok (k + 1) (by simpa using Nat.succ_lt_succ hk)
          simpa [Nat.add_assoc, Nat.add_comm 1 k] using this)
        (by
          have : st.pushCount + (pre2.length + 1) = st.pushCount + 1 + pre2.length := by omega
          rw [← this]
          simpa [Nat.add_comm pre2.length 1] using hbad)
        rfl
    refine ⟨stB, ?_, ?_, hrt2, herr, ?_, ?_, ?_⟩
    · rw [List.cons_append, streamLoop, maybeAbort_none]
      simp only [pushEv, if_true, h0, if_false, Bool.false_eq_true]
      exact heq
    · rw [hcont]
      simp only [joinAll_cons, String.append_assoc]
    · simpa using hpart
    · simpa using hsess
    · rw [hpc]
      show st.pushCount + 1 + pre2.length + 1 = st.pushCount + (p :: pre2).length + 1
      simp only [List.length_cons]
      omega

theorem exceptPath_facts (amid : String) (hasWs : Bool) (fails : Nat → Bool)
    (e : String) (st : St) :
    (exceptPath amid hasWs fails e st).1.row
      = ⟨st.row.sessionId, st.content, some e, false⟩ ∧
    dbGet (exceptPath amid hasWs fails e st).1.db amid
      = some (⟨st.row.sessionId, st.content, some e, false⟩ : MessageRec) ∧
    ((exceptPath amid hasWs fails e st).2 = Except.error e ∨
     (exceptPath amid hasWs fails e st).2 = Except.error "WebSocketDisconnect") ∧
    (exceptPath amid hasWs fails e st).1.content = st.content := by
  unfold exceptPath
  cases hasWs
  · simp [pushEv, dbGet_dbSet_self]
  · by_cases hf : fails st.pushCount <;> simp [pushEv, hf, dbGet_dbSet_self]

/-- C3 amended: a failing sink push is not swallowed by the run: the run
stops at that fragment, takes the error path (the record is finalized with
isPartial false, errorText the WebSocket failure and the text accumulated
so far), never pulls the remaining fragments, and the exception propagates
as the run's outcome.  Only `StreamManager.send_message` swallows a
failing send (by dropping the connection). -/
theorem c3_amended (sid amid : String) (pre : List String) (t : String)
    (rest : List String) (termErr : Option String) (fails : Nat → Bool)
    (db0 : DB) (mgr0 : StreamManager)
    (hok : ∀ k, k < pre.length + 1 → fails k = false)
    (hbad : fails (pre.length + 1) = true) :
    (stream_llm_response sid amid (pre ++ t :: rest) termErr true fails none db0 mgr0).2
      = Except.error "WebSocketDisconnect" ∧
    (stream_llm_response sid amid (pre ++ t :: rest) termErr true fails none db0 mgr0).1.row
      = ⟨sid, joinAll pre ++ t, some "WebSocketDisconnect", false⟩ ∧
    (stream_llm_response sid amid (pre ++ t :: rest) termErr true fails none db0 mgr0).1.content
      = joinAll pre ++ t ∧
    dbGet (stream_llm_response sid amid (pre ++ t :: rest) termErr true fails none db0 mgr0).1.db amid
      = some (⟨sid, joinAll pre ++ t, some "WebSocketDisconnect", false⟩ : MessageRec) ∧
    (∀ (m : StreamManager) (ev : Ev),
      sid ∈ m.active_connections →
      send_message m sid ev true = (m.disconnect sid, none)) := by
  have h0 : fails 0 = false := hok 0 (by omega)
  obtain ⟨stB, heq, hcont, hrt2, herrN, hpart, hsess, hpc⟩ :=
    streamLoop_firstFail amid sid fails pre t rest 0
      ⟨dbSet db0 amid ⟨sid, "", none, true⟩, mgr0.start_streaming sid,
        ⟨sid, "", none, true⟩, "", 1,
        [Act.dbWrite ⟨sid, "", none, true⟩, Act.push (Ev.streamStart amid)]⟩
      (by
        intro k hk
        exact hok (1 + k) (by omega))
      (by
        have : (1 : Nat) + pre.length = pre.length + 1 := by omega
        rw [this]
        exact hbad)
      rfl
  have hff := exceptPath_facts amid true fails "WebSocketDisconnect" stB
  have hgoal : stream_llm_response sid amid (pre ++ t :: rest) termErr true fails none db0 mgr0
      = (finallyPath sid (exceptPath amid true fails "WebSocketDisconnect" stB).1,
         (exceptPath amid true fails "WebSocketDisconnect" stB).2) := by
    simp only [stream_llm_response, runBody_eq_afterStart]
    simp only [pushEv, if_true, h0, if_false, Bool.false_eq_true, Nat.zero_add,
      List.singleton_append]
    unfold afterStart
    rw [heq]
  rw [hgoal]
  have hsess2 : stB.row.sessionId = sid := by rw [hsess]
  have hcont2 : stB.content = joinAll pre ++ t := by
    rw [hcont]
    exact String.empty_append _
  refine ⟨?_, ?_, ?_, ?_, ?_⟩
  · rcases hff.2.2.1 with h | h <;> exact h
  · rw [finallyPath_row, hff.1, hsess2, hcont2]
  · rw [finallyPath_content, hff.2.2.2, hcont2]
  · rw [finallyPath_db, hff.2.1, hsess2, hcont2]
  · intro m ev hm
    unfold send_message
    have hmc : m.active_connections.contains sid = true := by
      exact List.elem_eq_true_of_mem hm
    rw [if_pos hmc, if_pos rfl]

/-- Witness for C3 amended: the push of the very first fragment fails,
the run errors out with text "Hel" and the second fragment never runs. -/
theorem c3_amended_witness :
    (stream_llm_response "s1" "m1" ([] ++ "Hel" :: ["lo"]) none true
        (fun n => n == 1) none [] ⟨[], []⟩).2
      = Except.error "WebSocketDisconnect" ∧
    (stream_llm_response "s1" "m1" ([] ++ "Hel" :: ["lo"]) none true
        (fun n => n == 1) none [] ⟨[], []⟩).1.row
      = ⟨"s1", joinAll [] ++ "Hel", some "WebSocketDisconnect", false⟩ := by
  have h := c3_amended "s1" "m1" [] "Hel" ["lo"] none (fun n => n == 1) [] ⟨[], []⟩
    (by decide) (by decide)
  exact ⟨h.1, h.2.1⟩


theorem wset_append (l₁ : List Act) : ∀ (l₂ : List Act) (w : List String),
    wset w (l₁ ++ l₂) = wset (wset w l₁) l₂ := by
  induction l₁ with
  | nil => intro l₂ w; rfl
  | cons a l ih =>
    intro l₂ w
    cases a with
    | dbWrite r => simp [wset, ih]
    | push e => simp [wset, ih]
    | pushFail e => simp [wset, ih]
    | providerClose => simp [wset, ih]

theorem wbe_append (l₁ : List Act) : ∀ (l₂ : List Act) (w : List String),
    wbeAux w (l₁ ++ l₂) = (wbeAux w l₁ && wbeAux (wset w l₁) l₂) := by
  induction l₁ with
  | nil => intro l₂ w; simp [wbeAux, wset]
  | cons a l ih =>
    intro l₂ w
    cases a with
    | dbWrite r => simp [wbeAux, wset, ih]
    | push e =>
      cases e with
      | token mid tok c => simp [wbeAux, wset, ih, Bool.and_assoc]
      | streamStart mid => simp [wbeAux, wset, ih]
      | streamContinue mid ex => simp [wbeAux, wset, ih]
      | streamComplete mid c => simp [wbeAux, wset, ih]
      | streamError mid e2 c => simp [wbeAux, wset, ih]
      | streamAborted => simp [wbeAux, wset, ih]
    | pushFail e => simp [wbeAux, wset, ih]
    | providerClose => simp [wbeAux, wset, ih]

theorem abort_stream_ev (sid : String) (f : Bool) (m : StreamManager) (e : Ev)
    (h : (abort_stream sid f m).2.2 = some e) : e = Ev.streamAborted := by
  unfold abort_stream send_message at h
  by_cases h1 : m.is_streaming sid
  · simp only [h1, if_true] at h
    by_cases h2 : sid ∈ (m.stop_streaming sid).active_connections
    · cases f
      · simp [h2] at h
        exact h.symm
      · simp [h2] at h
    · simp [h2] at h
  · simp [h1] at h

theorem maybeAbort_wbe (sid : String) (ab : Option Nat) (i : Nat) (st : St)
    (h : wbeAux [] st.trace = true) :
    wbeAux [] (maybeAbort sid ab i st).trace = true := by
  unfold maybeAbort
  split
  · cases hev : (abort_stream sid false st.mgr).2.2 with
    | none => simpa [hev, wbe_append, wbeAux] using h
    | some e =>
      have he := abort_stream_ev sid false st.mgr e hev
      subst he
      simp [hev, wbe_append, wbeAux, h]
  · exact h

theorem streamLoop_wbe (amid sid : String) (hasWs : Bool) (fails : Nat → Bool)
    (ab : Option Nat) :
    ∀ (toks : List String) (i : Nat) (st : St),
    wbeAux [] st.trace = true →
    wbeAux [] ((streamLoop amid sid hasWs fails ab i toks st).1.trace) = true := by
  intro toks
  induction toks with
  | nil =>
    intro i st h
    simp only [streamLoop]
    exact maybeAbort_wbe sid ab i st h
  | cons tok rest ih =>
    intro i st h
    have h0 : wbeAux [] (maybeAbort sid ab i st).trace = true :=
      maybeAbort_wbe sid ab i st h
    have h1 : wbeAux [] ((maybeAbort sid ab i st).trace
        ++ [Act.dbWrite { (maybeAbort sid ab i st).row with
              text := (maybeAbort sid ab i st).content ++ tok, errorText := none }]) = true := by
      rw [wbe_append]
      simp [wbeAux, h0]
    simp only [streamLoop]
    cases hws : hasWs with
    | false =>
      rw [hws] at ih
      simp only [pushEv, if_false, Bool.false_eq_true]
      exact ih (i + 1) _ h1
    | true =>
      rw [hws] at ih
      by_cases hf : fails ((maybeAbort sid ab i st).pushCount)
      · simp only [pushEv, if_true, hf]
        rw [wbe_append]
        simp [wbeAux, h1]
      · simp only [pushEv, if_true, hf, if_false, Bool.false_eq_true]
        apply ih (i + 1)
        rw [wbe_append]
        simp only [h1, Bool.true_and]
        rw [wset_append]
        simp [wbeAux, wset]

theorem exceptPath_wbe (amid : String) (hasWs : Bool) (fails : Nat → Bool)
    (e : String) (st : St) (h : wbeAux [] st.trace = true) :
    wbeAux [] ((exceptPath amid hasWs fails e st).1.trace) = true := by
  unfold exceptPath
  cases hasWs
  · simp [pushEv, wbe_append, wbeAux, h]
  · by_cases hf : fails st.pushCount <;> simp [pushEv, hf, wbe_append, wbeAux, h]

theorem completePath_wbe (amid : String) (hasWs : Bool) (fails : Nat → Bool)
    (st : St) (h : wbeAux [] st.trace = true) :
    wbeAux [] ((completePath amid hasWs fails st).1.trace) = true := by
  unfold completePath
  cases hasWs
  · simp [pushEv, wbe_append, wbeAux, h]
  · by_cases hf : fails st.pushCount
    · simp only [pushEv, hf, if_true]
      apply exceptPath_wbe
      simp [wbe_append, wbeAux, h]
    · simp [pushEv, hf, wbe_append, wbeAux, h]

theorem afterStart_wbe (amid sid : String) (tokens : List String)
    (termErr : Option String) (hasWs : Bool) (fails : Nat → Bool)
    (ab : Option Nat) (st : St) (h : wbeAux [] st.trace = true) :
    wbeAux [] ((afterStart amid sid tokens termErr hasWs fails ab st).1.trace) = true := by
  unfold afterStart
  rcases hL : streamLoop amid sid hasWs fails ab 0 tokens st with ⟨s2, o⟩
  have h2 : wbeAux [] s2.trace = true := by
    have := streamLoop_wbe amid sid hasWs fails ab tokens 0 st h
    rw [hL] at this
    exact this
  cases o with
  | some e => exact exceptPath_wbe amid hasWs fails e s2 h2
  | none =>
    cases termErr with
    | some e => exact exceptPath_wbe amid hasWs fails e s2 h2
    | none => exact completePath_wbe amid hasWs fails s2 h2

theorem runBody_wbe (amid sid : String) (tokens : List String)
    (termErr : Option String) (hasWs : Bool) (fails : Nat → Bool)
    (ab : Option Nat) (st : St) (h : wbeAux [] st.trace = true) :
    wbeAux [] ((runBody amid sid tokens termErr hasWs fails ab st).1.trace) = true := by
  rw [runBody_eq_afterStart]
  cases hasWs
  · simp only [pushEv, if_false, Bool.false_eq_true]
    exact afterStart_wbe amid sid tokens termErr false fails ab st h
  · by_cases hf : fails st.pushCount
    · simp only [pushEv, if_true, hf]
      apply exceptPath_wbe
      simp [wbe_append, wbeAux, h]
    · simp only [pushEv, if_true, hf, if_false, Bool.false_eq_true]
      apply afterStart_wbe
      simp [wbe_append, wbeAux, h]

theorem exceptPathC_wbe (mid : String) (hasWs : Bool) (fails : Nat → Bool)
    (e : String) (st : St) (h : wbeAux [] st.trace = true) :
    wbeAux [] ((exceptPathC mid hasWs fails e st).1.trace) = true := by
  unfold exceptPathC
  cases hasWs
  · simp [pushEv, wbe_append, wbeAux, h]
  · by_cases hf : fails st.pushCount <;> simp [pushEv, hf, wbe_append, wbeAux, h]

theorem completePathC_wbe (mid : String) (hasWs : Bool) (fails : Nat → Bool)
    (st : St) (h : wbeAux [] st.trace = true) :
    wbeAux [] ((completePathC mid hasWs fails st).1.trace) = true := by
  unfold completePathC
  cases hasWs
  · simp [pushEv, wbe_append, wbeAux, h]
  · by_cases hf : fails st.pushCount
    · simp only [pushEv, hf, if_true]
      apply exceptPathC_wbe
      simp [wbe_append, wbeAux, h]
    · simp [pushEv, hf, wbe_append, wbeAux, h]

theorem afterStartC_wbe (mid sid : String) (tokens : List String)
    (termErr : Option String) (hasWs : Bool) (fails : Nat → Bool)
    (ab : Option Nat) (st : St) (h : wbeAux [] st.trace = true) :
    wbeAux [] ((afterStartC mid sid tokens termErr hasWs fails ab st).1.trace) = true := by
  unfold afterStartC
  rcases hL : streamLoop mid sid hasWs fails ab 0 tokens st with ⟨s2, o⟩
  have h2 : wbeAux [] s2.trace = true := by
    have := streamLoop_wbe mid sid hasWs fails ab tokens 0 st h
    rw [hL] at this
    exact this
  cases o with
  | some e => exact exceptPathC_wbe mid hasWs fails e s2 h2
  | none =>
    cases termErr with
    | some e => exact exceptPathC_wbe mid hasWs fails e s2 h2
    | none => exact completePathC_wbe mid hasWs fails s2 h2

theorem runBodyC_wbe (mid sid existing : String) (tokens : List String)
    (termErr : Option String) (hasWs : Bool) (fails : Nat → Bool)
    (ab : Option Nat) (st : St) (h : wbeAux [] st.trace = true) :
    wbeAux [] ((runBodyC mid sid existing tokens termErr hasWs fails ab st).1.trace)
      = true := by
  rw [runBodyC_eq_afterStartC]
  cases hasWs
  · simp only [pushEv, if_false, Bool.false_eq_true]
    exact afterStartC_wbe mid sid tokens termErr false fails ab st h
  · by_cases hf : fails st.pushCount
    · simp only [pushEv, if_true, hf]
      simp [wbe_append, wbeAux, h]
    · simp only [pushEv, if_true, hf, if_false, Bool.false_eq_true]
      apply afterStartC_wbe
      simp [wbe_append, wbeAux, h]

/-- C5: write-before-emit: in every run (fresh start or continuation, with
any sink behaviour and any abort interleaving) every token event delivered
to the sink carries a running total that was already committed to the
Partial-Message Store. -/
theorem c5_write_before_emit (sid amid mid : String) (tokens : List String)
    (termErr : Option String) (hasWs : Bool) (fails : Nat → Bool)
    (abortAt : Option Nat) (db0 : DB) (mgr0 : StreamManager) :
    wbeAux [] (stream_llm_response sid amid tokens termErr hasWs fails abortAt db0 mgr0).1.trace
      = true ∧
    wbeAux [] (continue_stream mid tokens termErr hasWs fails abortAt db0 mgr0).1.trace
      = true := by
  constructor
  · simp only [stream_llm_response, finallyPath_trace]
    rw [wbe_append]
    have := runBody_wbe amid sid tokens termErr hasWs fails abortAt
      ⟨dbSet db0 amid ⟨sid, "", none, true⟩, mgr0.start_streaming sid,
        ⟨sid, "", none, true⟩, "", 0, [Act.dbWrite ⟨sid, "", none, true⟩]⟩ rfl
    simp [this, wbeAux]
  · unfold continue_stream
    cases hg : dbGet db0 mid with
    | none => rfl
    | some msg =>
      by_cases hp : msg.isPartial
      · simp only [hp, if_true, finallyPath_trace]
        rw [wbe_append]
        have := runBodyC_wbe mid msg.sessionId msg.text tokens termErr hasWs fails abortAt
          ⟨db0, mgr0.start_streaming msg.sessionId, msg, msg.text, 0, []⟩ rfl
        simp [this, wbeAux]
      · simp only [hp, Bool.false_eq_true, if_false]
        rfl


theorem appendChain_cons_cons (a b : String) (l : List String) :
    appendChain (a :: b :: l) = ((∃ u, b = a ++ u) ∧ appendChain (b :: l)) := rfl

theorem appendChain_snoc : ∀ (l : List String) (b : String), appendChain l →
    (∀ x, l.getLast? = some x → ∃ u, b = x ++ u) → appendChain (l ++ [b]) := by
  intro l
  induction l with
  | nil => intro b _ _; simp [appendChain]
  | cons a l ih =>
    intro b h h2
    cases l with
    | nil =>
      rw [List.cons_append, List.nil_append, appendChain_cons_cons]
      exact ⟨h2 a rfl, trivial⟩
    | cons c l2 =>
      rw [appendChain_cons_cons] at h
      rw [List.cons_append, List.cons_append, appendChain_cons_cons, ← List.cons_append]
      refine ⟨h.1, ?_⟩
      exact ih b h.2 (fun x hx => h2 x (by rwa [List.getLast?_cons_cons]))

theorem appendChain_lensMono : ∀ (l : List String), appendChain l →
    lensMono (l.map String.length) = true := by
  intro l
  induction l with
  | nil => intro _; rfl
  | cons a l ih =>
    cases l with
    | nil => intro _; rfl
    | cons b l2 =>
      intro h
      rw [appendChain_cons_cons] at h
      obtain ⟨⟨u, hu⟩, h2⟩ := h
      have hb : lensMono ((b :: l2).map String.length) = true := ih h2
      simp only [List.map_cons, lensMono] at hb ⊢
      refine (Bool.and_eq_true _ _).mpr ⟨?_, hb⟩
      subst hu
      simp [String.length_append]

theorem chainInv_pushes (st : St) (ext : List Act) (h : chainInv st)
    (hw : writtenTexts ext = []) :
    chainInv { st with trace := st.trace ++ ext } := by
  obtain ⟨h1, h2, h3⟩ := h
  refine ⟨?_, ?_, h3⟩
  · rw [writtenTexts_append, hw, List.append_nil]
    exact h1
  · rw [writtenTexts_append, hw, List.append_nil]
    exact h2

theorem maybeAbort_chain (sid : String) (ab : Option Nat) (i : Nat) (st : St)
    (h : chainInv st) : chainInv (maybeAbort sid ab i st) := by
  unfold maybeAbort
  split
  · cases hev : (abort_stream sid false st.mgr).2.2 with
    | none =>
      simp only [hev]
      exact chainInv_pushes st _ h rfl
    | some e =>
      simp only [hev]
      exact chainInv_pushes st _ h rfl
  · exact h

theorem chainInv_write (st : St) (ext : List Act) (c2 : String) (r2 : MessageRec)
    (h : chainInv st)
    (hw : writtenTexts ext = [c2])
    (hr : r2.text = c2)
    (hc : ∃ u, c2 = st.content ++ u) :
    chainInv { st with content := c2, row := r2, trace := st.trace ++ ext } := by
  obtain ⟨h1, h2, h3⟩ := h
  obtain ⟨u, hu⟩ := hc
  refine ⟨?_, ?_, hr⟩
  · rw [writtenTexts_append, hw]
    apply appendChain_snoc _ _ h1
    intro x hx
    obtain ⟨v, hv⟩ := h2 x hx
    exact ⟨v ++ u, by rw [hu, hv, String.append_assoc]⟩
  · rw [writtenTexts_append, hw]
    intro x hx
    rw [List.getLast?_concat] at hx
    cases hx
    exact ⟨"", (String.append_empty _).symm⟩

theorem chainInv_pushes2 (st st' : St) (ext : List Act) (h : chainInv st)
    (htr : st'.trace = st.trace ++ ext)
    (hco : st'.content = st.content) (hro : st'.row = st.row)
    (hw : writtenTexts ext = []) : chainInv st' := by
  obtain ⟨h1, h2, h3⟩ := h
  unfold chainInv
  rw [htr, hco, hro, writtenTexts_append, hw, List.append_nil]
  exact ⟨h1, h2, h3⟩

theorem chainInv_write2 (st st' : St) (ext : List Act) (c2 : String) (r2 : MessageRec)
    (h : chainInv st)
    (htr : st'.trace = st.trace ++ ext)
    (hco : st'.content = c2) (hro : st'.row = r2)
    (hw : writtenTexts ext = [c2]) (hr : r2.text = c2)
    (hc : ∃ u, c2 = st.content ++ u) : chainInv st' := by
  obtain ⟨h1, h2, h3⟩ := h
  obtain ⟨u, hu⟩ := hc
  unfold chainInv
  rw [htr, hco, hro, writtenTexts_append, hw]
  refine ⟨?_, ?_, hr⟩
  · apply appendChain_snoc _ _ h1
    intro x hx
    obtain ⟨v, hv⟩ := h2 x hx
    exact ⟨v ++ u, by rw [hu, hv, String.append_assoc]⟩
  · intro x hx
    rw [List.getLast?_concat] at hx
    cases hx
    exact ⟨"", (String.append_empty _).symm⟩

theorem streamLoop_chain (amid sid : String) (hasWs : Bool) (fails : Nat → Bool)
    (ab : Option Nat) :
    ∀ (toks : List String) (i : Nat) (st : St), chainInv st →
    chainInv ((streamLoop amid sid hasWs fails ab i toks st).1) := by
  intro toks
  induction toks with
  | nil =>
    intro i st h
    simp only [streamLoop]
    exact maybeAbort_chain sid ab i st h
  | cons tok rest ih =>
    intro i st h
    have hM : chainInv (maybeAbort sid ab i st) := maybeAbort_chain sid ab i st h
    have h1 : chainInv
        { maybeAbort sid ab i st with
          content := (maybeAbort sid ab i st).content ++ tok
          row := { (maybeAbort sid ab i st).row with
            text := (maybeAbort sid ab i st).content ++ tok, errorText := none }
          db := dbSet (maybeAbort sid ab i st).db amid
            { (maybeAbort sid ab i st).row with
              text := (maybeAbort sid ab i st).content ++ tok, errorText := none }
          trace := (maybeAbort sid ab i st).trace
            ++ [Act.dbWrite { (maybeAbort sid ab i st).row with
                text := (maybeAbort sid ab i st).content ++ tok, errorText := none }] } := by
      apply chainInv_write2 (maybeAbort sid ab i st) _
        [Act.dbWrite { (maybeAbort sid ab i st).row with
          text := (maybeAbort sid ab i st).content ++ tok, errorText := none }]
        ((maybeAbort sid ab i st).content ++ tok)
        { (maybeAbort sid ab i st).row with
          text := (maybeAbort sid ab i st).content ++ tok, errorText := none }
        hM rfl rfl rfl rfl rfl
      exact ⟨tok, rfl⟩
    simp only [streamLoop]
    cases hws : hasWs with
    | false =>
      rw [hws] at ih
      simp only [pushEv, if_false, Bool.false_eq_true]
      exact ih (i + 1) _ h1
    | true =>
      rw [hws] at ih
      by_cases hf : fails ((maybeAbort sid ab i st).pushCount)
      · simp only [pushEv, if_true, hf]
        exact chainInv_pushes2 _ _ [Act.pushFail (Ev.token amid tok
          ((maybeAbort sid ab i st).content ++ tok))] h1 rfl rfl rfl rfl
      · simp only [pushEv, if_true, hf, if_false, Bool.false_eq_true]
        apply ih (i + 1)
        exact chainInv_pushes2 _ _ [Act.push (Ev.token amid tok
          ((maybeAbort sid ab i st).content ++ tok))] h1 rfl rfl rfl rfl

theorem exceptPath_chain (amid : String) (hasWs : Bool) (fails : Nat → Bool)
    (e : String) (st : St) (h : chainInv st) :
    chainInv ((exceptPath amid hasWs fails e st).1) := by
  have h1 : chainInv
      { st with
        row := { st.row with text := st.content, errorText := some e, isPartial := false }
        db := dbSet st.db amid
          { st.row with text := st.content, errorText := some e, isPartial := false }
        trace := st.trace ++ [Act.dbWrite
          { st.row with text := st.content, errorText := some e, isPartial := false }] } := by
    apply chainInv_write2 st
      { st with
        row := { st.row with text := st.content, errorText := some e, isPartial := false }
        db := dbSet st.db amid
          { st.row with text := st.content, errorText := some e, isPartial := false }
        trace := st.trace ++ [Act.dbWrite
          { st.row with text := st.content, errorText := some e, isPartial := false }] }
      [Act.dbWrite { st.row with text := st.content, errorText := some e, isPartial := false }]
      st.content
      { st.row with text := st.content, errorText := some e, isPartial := false }
      h rfl rfl rfl rfl rfl
    exact ⟨"", (String.append_empty _).symm⟩
  unfold exceptPath
  cases hasWs
  · simpa [pushEv] using h1
  · by_cases hf : fails st.pushCount
    · simp only [pushEv, if_true, hf]
      exact chainInv_pushes2 _ _ [Act.pushFail (Ev.streamError amid e (some st.content))]
        h1 rfl rfl rfl rfl
    · simp only [pushEv, if_true, hf, if_false, Bool.false_eq_true]
      exact chainInv_pushes2 _ _ [Act.push (Ev.streamError amid e (some st.content))]
        h1 rfl rfl rfl rfl

theorem completePath_chain (amid : String) (hasWs : Bool) (fails : Nat → Bool)
    (st : St) (h : chainInv st) :
    chainInv ((completePath amid hasWs fails st).1) := by
  have h1 : chainInv
      { st with
        row := { st.row with text := st.content, errorText := none, isPartial := false }
        db := dbSet st.db amid
          { st.row with text := st.content, errorText := none, isPartial := false }
        trace := st.trace ++ [Act.dbWrite
          { st.row with text := st.content, errorText := none, isPartial := false }] } := by
    apply chainInv_write2 st
      { st with
        row := { st.row with text := st.content, errorText := none, isPartial := false }
        db := dbSet st.db amid
          { st.row with text := st.content, errorText := none, isPartial := false }
        trace := st.trace ++ [Act.dbWrite
          { st.row with text := st.content, errorText := none, isPartial := false }] }
      [Act.dbWrite { st.row with text := st.content, errorText := none, isPartial := false }]
      st.content
      { st.row with text := st.content, errorText := none, isPartial := false }
      h rfl rfl rfl rfl rfl
    exact ⟨"", (String.append_empty _).symm⟩
  unfold completePath
  cases hasWs
  · simpa [pushEv] using h1
  · by_cases hf : fails st.pushCount
    · simp only [pushEv, if_true, hf]
      apply exceptPath_chain
      exact chainInv_pushes2 _ _ [Act.pushFail (Ev.streamComplete amid st.content)]
        h1 rfl rfl rfl rfl
    · simp only [pushEv, if_true, hf, if_false, Bool.false_eq_true]
      exact chainInv_pushes2 _ _ [Act.push (Ev.streamComplete amid st.content)]
        h1 rfl rfl rfl rfl

theorem exceptPathC_chain (mid : String) (hasWs : Bool) (fails : Nat → Bool)
    (e : String) (st : St) (h : chainInv st) :
    chainInv ((exceptPathC mid hasWs fails e st).1) := by
  have h1 : chainInv
      { st with
        row := { st.row with text := st.content, errorText := some e, isPartial := false }
        db := dbSet st.db mid
          { st.row with text := st.content, errorText := some e, isPartial := false }
        trace := st.trace ++ [Act.dbWrite
          { st.row with text := st.content, errorText := some e, isPartial := false }] } := by
    apply chainInv_write2 st
      { st with
        row := { st.row with text := st.content, errorText := some e, isPartial := false }
        db := dbSet st.db mid
          { st.row with text := st.content, errorText := some e, isPartial := false }
        trace := st.trace ++ [Act.dbWrite
          { st.row with text := st.content, errorText := some e, isPartial := false }] }
      [Act.dbWrite { st.row with text := st.content, errorText := some e, isPartial := false }]
      st.content
      { st.row with text := st.content, errorText := some e, isPartial := false }
      h rfl rfl rfl rfl rfl
    exact ⟨"", (String.append_empty _).symm⟩
  unfold exceptPathC
  cases hasWs
  · simpa [pushEv] using h1
  · by_cases hf : fails st.pushCount
    · simp only [pushEv, if_true, hf]
      exact chainInv_pushes2 _ _ [Act.pushFail (Ev.streamError mid e none)]
        h1 rfl rfl rfl rfl
    · simp only [pushEv, if_true, hf, if_false, Bool.false_eq_true]
      exact chainInv_pushes2 _ _ [Act.push (Ev.streamError mid e none)]
        h1 rfl rfl rfl rfl

theorem completePathC_chain (mid : String) (hasWs : Bool) (fails : Nat → Bool)
    (st : St) (h : chainInv st) :
    chainInv ((completePathC mid hasWs fails st).1) := by
  have h1 : chainInv
      { st with
        row := { st.row with isPartial := false }
        db := dbSet st.db mid { st.row with isPartial := false }
        trace := st.trace ++ [Act.dbWrite { st.row with isPartial := false }] } := by
    apply chainInv_write2 st
      { st with
        row := { st.row with isPartial := false }
        db := dbSet st.db mid { st.row with isPartial := false }
        trace := st.trace ++ [Act.dbWrite { st.row with isPartial := false }] }
      [Act.dbWrite { st.row with isPartial := false }]
      st.content
      { st.row with isPartial := false }
      h rfl rfl rfl ?_ ?_
    · exact ⟨"", (String.append_empty _).symm⟩
    · simp [writtenTexts, h.2.2]
    · exact h.2.2
  unfold completePathC
  cases hasWs
  · simpa [pushEv] using h1
  · by_cases hf : fails st.pushCount
    · simp only [pushEv, if_true, hf]
      apply exceptPathC_chain
      exact chainInv_pushes2 _ _ [Act.pushFail (Ev.streamComplete mid st.content)]
        h1 rfl rfl rfl rfl
    · simp only [pushEv, if_true, hf, if_false, Bool.false_eq_true]
      exact chainInv_pushes2 _ _ [Act.push (Ev.streamComplete mid st.content)]
        h1 rfl rfl rfl rfl

theorem afterStart_chain (amid sid : String) (tokens : List String)
    (termErr : Option String) (hasWs : Bool) (fails : Nat → Bool)
    (ab : Option Nat) (st : St) (h : chainInv st) :
    chainInv ((afterStart amid sid tokens termErr hasWs fails ab st).1) := by
  unfold afterStart
  rcases hL : streamLoop amid sid hasWs fails ab 0 tokens st with ⟨s2, o⟩
  have h2 : chainInv s2 := by
    have := streamLoop_chain amid sid hasWs fails ab tokens 0 st h
    rw [hL] at this
    exact this
  cases o with
  | some e => exact exceptPath_chain amid hasWs fails e s2 h2
  | none =>
    cases termErr with
    | some e => exact exceptPath_chain amid hasWs fails e s2 h2
    | none => exact completePath_chain amid hasWs fails s2 h2

theorem runBody_chain (amid sid : String) (tokens : List String)
    (termErr : Option String) (hasWs : Bool) (fails : Nat → Bool)
    (ab : Option Nat) (st : St) (h : chainInv st) :
    chainInv ((runBody amid sid tokens termErr hasWs fails ab st).1) := by
  rw [runBody_eq_afterStart]
  cases hasWs
  · simp only [pushEv, if_false, Bool.false_eq_true]
    exact afterStart_chain amid sid tokens termErr false fails ab st h
  · by_cases hf : fails st.pushCount
    · simp only [pushEv, if_true, hf]
      apply exceptPath_chain
      exact chainInv_pushes2 _ _ [Act.pushFail (Ev.streamStart amid)] h rfl rfl rfl rfl
    · simp only [pushEv, if_true, hf, if_false, Bool.false_eq_true]
      apply afterStart_chain
      exact chainInv_pushes2 _ _ [Act.push (Ev.streamStart amid)] h rfl rfl rfl rfl

theorem afterStartC_chain (mid sid : String) (tokens : List String)
    (termErr : Option String) (hasWs : Bool) (fails : Nat → Bool)
    (ab : Option Nat) (st : St) (h : chainInv st) :
    chainInv ((afterStartC mid sid tokens termErr hasWs fails ab st).1) := by
  unfold afterStartC
  rcases hL : streamLoop mid sid hasWs fails ab 0 tokens st with ⟨s2, o⟩
  have h2 : chainInv s2 := by
    have := streamLoop_chain mid sid hasWs fails ab tokens 0 st h
    rw [hL] at this
    exact this
  cases o with
  | some e => exact exceptPathC_chain mid hasWs fails e s2 h2
  | none =>
    cases termErr with
    | some e => exact exceptPathC_chain mid hasWs fails e s2 h2
    | none => exact completePathC_chain mid hasWs fails s2 h2

theorem runBodyC_chain (mid sid existing : String) (tokens : List String)
    (termErr : Option String) (hasWs : Bool) (fails : Nat → Bool)
    (ab : Option Nat) (st : St) (h : chainInv st) :
    chainInv ((runBodyC mid sid existing tokens termErr hasWs fails ab st).1) := by
  rw [runBodyC_eq_afterStartC]
  cases hasWs
  · simp only [pushEv, if_false, Bool.false_eq_true]
    exact afterStartC_chain mid sid tokens termErr false fails ab st h
  · by_cases hf : fails st.pushCount
    · simp only [pushEv, if_true, hf]
      exact chainInv_pushes2 _ _ [Act.pushFail (Ev.streamContinue mid existing)]
        h rfl rfl rfl rfl
    · simp only [pushEv, if_true, hf, if_false, Bool.false_eq_true]
      apply afterStartC_chain
      exact chainInv_pushes2 _ _ [Act.push (Ev.streamContinue mid existing)]
        h rfl rfl rfl rfl

/-- C10: append-only: across every run, each committed text of the record
extends the previous one by appending, so the stored text length is
non-decreasing over the lifetime of the run. -/
theorem c10_append_only (sid amid mid : String) (tokens : List String)
    (termErr : Option String) (hasWs : Bool) (fails : Nat → Bool)
    (abortAt : Option Nat) (db0 : DB) (mgr0 : StreamManager) :
    (appendChain (writtenTexts
        (stream_llm_response sid amid tokens termErr hasWs fails abortAt db0 mgr0).1.trace) ∧
     lensMono ((writtenTexts
        (stream_llm_response sid amid tokens termErr hasWs fails abortAt db0 mgr0).1.trace).map
        String.length) = true) ∧
    (appendChain (writtenTexts
        (continue_stream mid tokens termErr hasWs fails abortAt db0 mgr0).1.trace) ∧
     lensMono ((writtenTexts
        (continue_stream mid tokens termErr hasWs fails abortAt db0 mgr0).1.trace).map
        String.length) = true) := by
  have hmain : chainInv (stream_llm_response sid amid tokens termErr hasWs fails abortAt
      db0 mgr0).1 := by
    simp only [stream_llm_response]
    have h0 : chainInv
        (⟨dbSet db0 amid ⟨sid, "", none, true⟩, mgr0.start_streaming sid,
          ⟨sid, "", none, true⟩, "", 0, [Act.dbWrite ⟨sid, "", none, true⟩]⟩ : St) := by
      refine ⟨trivial, ?_, rfl⟩
      intro x hx
      simp only [writtenTexts, List.filterMap] at hx
      cases hx
      exact ⟨"", rfl⟩
    have hb := runBody_chain amid sid tokens termErr hasWs fails abortAt _ h0
    exact chainInv_pushes2 _ _ [Act.providerClose] hb rfl rfl rfl rfl
  have hcont : chainInv (continue_stream mid tokens termErr hasWs fails abortAt
      db0 mgr0).1 := by
    unfold continue_stream
    cases hg : dbGet db0 mid with
    | none =>
      show chainInv (⟨db0, mgr0, noRec, "", 0, []⟩ : St)
      refine ⟨trivial, ?_, rfl⟩
      intro x hx
      simp [writtenTexts] at hx
    | some msg =>
      by_cases hp : msg.isPartial
      · simp only [hp, if_true]
        have h0 : chainInv
            (⟨db0, mgr0.start_streaming msg.sessionId, msg, msg.text, 0, []⟩ : St) := by
          refine ⟨trivial, ?_, rfl⟩
          intro x hx
          simp [writtenTexts] at hx
        have hb := runBodyC_chain mid msg.sessionId msg.text tokens termErr hasWs fails
          abortAt _ h0
        exact chainInv_pushes2 _ _ [Act.providerClose] hb rfl rfl rfl rfl
      · simp only [hp, Bool.false_eq_true, if_false]
        show chainInv (⟨db0, mgr0, noRec, "", 0, []⟩ : St)
        refine ⟨trivial, ?_, rfl⟩
        intro x hx
        simp [writtenTexts] at hx
  exact ⟨⟨hmain.1, appendChain_lensMono _ hmain.1⟩,
    ⟨hcont.1, appendChain_lensMono _ hcont.1⟩⟩
